import Mathlib

/-!
# Balloon Pop game engine (`src/game.js`): shallow embedding

The closure of `src/game.js` is embedded as pure functions over an explicit `State`
record (the `state` object of the source).

Conventions of the embedding:

* JavaScript numbers that hold real quantities (coordinates, timers, speeds) are
  rationals `ℚ`; counters (`score`, `lives`, `level`, ...) are `Int`.  Arithmetic on them
  is exact, with one exception: the distance test of `handlePop`
  (`Math.sqrt(dx*dx + dy*dy) <= b.radius + 8`) is evaluated as the source evaluates it, in
  IEEE 754 double arithmetic, every operation rounded to nearest with ties to even (`fl`,
  `flSqrt`).  Overflow to `Infinity` (magnitudes from `2^1024` on) is outside the embedding.
* `Math.random()` is an explicit stream `Env.random : Nat → ℚ`; the number of calls made
  so far is the field `State.randomCalls`, so the k-th call of a run returns
  `env.random k`.
* `Math.sin` and `Math.PI` are components of `Env` (they have no rational values).
* `canvas.getBoundingClientRect()` is the `Rect` argument of every operation that reads it.
* Calls into the DOM and `localStorage` are appended to `State.log` as `Effect` values,
  in program order.
* The field `popEffects` of `state` is never read or written by the source and is left out;
  `levelTarget` is kept although only the initialiser writes it.
* `getLevelConfig` reads `LEVELS[min(level-1, 9)]`; for `level < 1` the source reads
  `undefined` and throws on the first property access.  The embedding is meant for
  `1 ≤ level` (every state the program can reach); theorems that depend on the level
  configuration carry that hypothesis or derive it from reachability.
-/

namespace BalloonPop

/-! ## Data model -/

/-- Point in client or canvas-local coordinates. -/
structure Pos where
  x : ℚ
  y : ℚ
deriving DecidableEq, Repr

/-- Result of `canvas.getBoundingClientRect()`. -/
structure Rect where
  left : ℚ
  top : ℚ
  width : ℚ
  height : ℚ
deriving DecidableEq, Repr

/-- Pointer event: `e.touches` (client coordinates of each touch, empty for mouse events)
and `e.clientX`, `e.clientY`. -/
structure InputEvent where
  touches : List Pos
  clientX : ℚ
  clientY : ℚ
deriving DecidableEq, Repr

/-- Entry of the `LEVELS` table. -/
structure LevelConfig where
  name : String
  target : Int
  spawnRate : ℚ
  speed : ℚ
  colors : List String
  bgGradient : List String
deriving DecidableEq, Repr

/-- Balloon record built by `createBalloon`. -/
structure Balloon where
  x : ℚ
  y : ℚ
  radius : ℚ
  color : String
  speed : ℚ
  wobbleSpeed : ℚ
  wobbleAmount : ℚ
  wobbleOffset : ℚ
  time : ℚ
  popped : Bool
  escaped : Bool
  golden : Bool
  opacity : ℚ
deriving DecidableEq, Repr

/-- Particle record pushed by `spawnParticles`. -/
structure Particle where
  x : ℚ
  y : ℚ
  vx : ℚ
  vy : ℚ
  radius : ℚ
  color : String
  life : ℚ
  decay : ℚ
deriving DecidableEq, Repr

/-- The four modal panels. -/
inductive Modal where
  | start
  | pause
  | levelComplete
  | gameOver
deriving DecidableEq, Repr

/-- Calls that leave the closure: DOM writes and `localStorage.setItem`. -/
inductive Effect where
  | preventDefault
  | showModal (m : Modal)
  | hideModal (m : Modal)
  | hud (score level lives levelPopped target : Int)
  | popEffect (x y : ℚ) (points : Int)
  | levelCompleteText (popped accuracy score bonus : Int) (nextName : String) (starCount : Int)
  | gameOverText (score level popped combo highScore : Int)
  | pauseText (score level lives popped : Int)
  | storeHighScore (v : Int)
deriving DecidableEq, Repr

/-- The `state` object, extended with the effect log and the count of `Math.random()`
calls made so far. -/
structure State where
  score : Int
  level : Int
  lives : Int
  totalPopped : Int
  levelPopped : Int
  levelClicks : Int
  levelTarget : Int
  bestCombo : Int
  currentCombo : Int
  comboTimer : ℚ
  highScore : Int
  paused : Bool
  running : Bool
  gameOver : Bool
  lastTime : ℚ
  spawnTimer : ℚ
  balloons : List Balloon
  particles : List Particle
  log : List Effect
  randomCalls : Nat
deriving DecidableEq, Repr

/-- What the closure reads from its surroundings: the outcomes of `Math.random()`,
`Math.sin` and `Math.PI`. -/
structure Env where
  random : Nat → ℚ
  sin : ℚ → ℚ
  pi : ℚ

/-- The initial `state` object after the script has run to its last line
(`showModal(modalStart)`); `hs` is the high score parsed from `localStorage`. -/
def initState (hs : Int) : State :=
  { score := 0, level := 1, lives := 3, totalPopped := 0, levelPopped := 0,
    levelClicks := 0, levelTarget := 10, bestCombo := 0, currentCombo := 0,
    comboTimer := 0, highScore := hs, paused := false, running := false,
    gameOver := false, lastTime := 0, spawnTimer := 0, balloons := [],
    particles := [], log := [Effect.showModal Modal.start], randomCalls := 0 }

/-- The `LEVELS` table. -/
def LEVELS : List LevelConfig :=
  [ { name := "Sunny Meadow", target := 8, spawnRate := 1.2, speed := 1,
      colors := ["#ff6b6b", "#ff8e53", "#ffd93d", "#6bcb77", "#4d96ff"],
      bgGradient := ["#87CEEB", "#e0f7e9"] },
    { name := "Ocean Breeze", target := 12, spawnRate := 1.0, speed := 1.15,
      colors := ["#00b4d8", "#0077b6", "#48cae4", "#90e0ef", "#caf0f8"],
      bgGradient := ["#0077b6", "#caf0f8"] },
    { name := "Sunset Glow", target := 15, spawnRate := 0.9, speed := 1.3,
      colors := ["#ff6b6b", "#ff8e53", "#ffd93d", "#c9184a", "#ff758f"],
      bgGradient := ["#ff758f", "#ffd93d"] },
    { name := "Enchanted Forest", target := 18, spawnRate := 0.8, speed := 1.4,
      colors := ["#2d6a4f", "#40916c", "#52b788", "#74c69d", "#95d5b2"],
      bgGradient := ["#1b4332", "#95d5b2"] },
    { name := "Neon Night", target := 22, spawnRate := 0.7, speed := 1.5,
      colors := ["#f72585", "#7209b7", "#3a0ca3", "#4361ee", "#4cc9f0"],
      bgGradient := ["#0d1b2a", "#1b263b"] },
    { name := "Candy Land", target := 25, spawnRate := 0.65, speed := 1.6,
      colors := ["#ff69b4", "#ff1493", "#ff6ec7", "#da70d6", "#ee82ee"],
      bgGradient := ["#ffe4f0", "#ffd1e8"] },
    { name := "Volcanic Core", target := 28, spawnRate := 0.6, speed := 1.7,
      colors := ["#ff4500", "#ff6347", "#ff7f50", "#dc143c", "#b22222"],
      bgGradient := ["#1a0000", "#8b0000"] },
    { name := "Arctic Frost", target := 30, spawnRate := 0.55, speed := 1.8,
      colors := ["#e0f7fa", "#b2ebf2", "#80deea", "#4dd0e1", "#26c6da"],
      bgGradient := ["#e0f7fa", "#ffffff"] },
    { name := "Space Odyssey", target := 35, spawnRate := 0.5, speed := 2.0,
      colors := ["#bb86fc", "#03dac6", "#cf6679", "#ffffff", "#ffde03"],
      bgGradient := ["#000000", "#1a1a3e"] },
    { name := "The Grand Finale", target := 40, spawnRate := 0.45, speed := 2.2,
      colors := ["#ffd700", "#ff6b6b", "#4ecdc4", "#45b7d1", "#f9ca24"],
      bgGradient := ["#2c3e50", "#3498db"] } ]

/-- Stand-in for the JavaScript value `undefined` read from `LEVELS` at an index outside
the table (only at `level < 1`, where the source throws). -/
def undefinedConfig : LevelConfig :=
  { name := "undefined", target := 0, spawnRate := 0, speed := 0, colors := [],
    bgGradient := [] }

/-! ## Utilities -/

/-- `Math.round`: the nearest integer, halves rounded towards positive infinity. -/
def mathRound (x : ℚ) : Int := ⌊x + 1 / 2⌋

/-- `Math.floor`. -/
def mathFloor (x : ℚ) : Int := ⌊x⌋

/-! ### IEEE 754 double arithmetic -/

/-- Nearest integer to `p / q` (for `q > 0`), ties to the even integer. -/
def roundHalfEven (p q : Nat) : Nat :=
  let n := p / q
  let r := p % q
  if 2 * r < q then n
  else if q < 2 * r then n + 1
  else if n % 2 = 0 then n else n + 1

/-- Loop of `ilog2`: halve `n` until it is below 2, at most `fuel` times. -/
def ilog2Loop : Nat → Nat → Nat
  | 0, _ => 0
  | fuel + 1, n => if 2 ≤ n then ilog2Loop fuel (n / 2) + 1 else 0

/-- The binary logarithm rounded down, `floor(log2 n)`, for positive `n` (0 at `n = 0`). -/
def ilog2 (n : Nat) : Nat := ilog2Loop n n

/-- The rational `n * 2^e`. -/
def scale2 (n : Nat) (e : Int) : ℚ :=
  if 0 ≤ e then ((n * 2 ^ e.toNat : Nat) : ℚ) else (n : ℚ) / ((2 ^ (-e).toNat : Nat) : ℚ)

/-- The binary logarithm of `p / q` rounded down, for positive `p` and `q`. -/
def log2Floor (p q : Nat) : Int :=
  let a := ilog2 p
  let b := ilog2 q
  if b ≤ a then
    if q * 2 ^ (a - b) ≤ p then ((a - b : Nat) : Int) else ((a - b : Nat) : Int) - 1
  else
    if q ≤ p * 2 ^ (b - a) then -((b - a : Nat) : Int) else -((b - a : Nat) : Int) - 1

/-- The double (IEEE 754 binary64) nearest to the real number `x`, ties to the even
significand: with `e` the exponent of the last place of the 53-bit significand (not
below `-1074`, where the subnormal numbers begin), `x / 2^e` is rounded to an integer.
This is the rounding every arithmetic operation of the source applies to its exact
result (`fl_spec`). -/
def fl (x : ℚ) : ℚ :=
  if x = 0 then 0
  else
    let p := x.num.natAbs
    let q := x.den
    let e := max (log2Floor p q - 52) (-1074)
    let m := if 0 ≤ e then roundHalfEven p (q * 2 ^ e.toNat)
             else roundHalfEven (p * 2 ^ (-e).toNat) q
    if x < 0 then -(scale2 m e) else scale2 m e

/-- Bit-by-bit integer square root: tries the bits `k - 1, ..., 0` on top of `r`. -/
def isqrtLoop (n : Nat) : Nat → Nat → Nat
  | 0, r => r
  | k + 1, r =>
    if (r + 2 ^ k) * (r + 2 ^ k) ≤ n then isqrtLoop n k (r + 2 ^ k) else isqrtLoop n k r

/-- The square root rounded down, `floor(sqrt n)`. -/
def isqrt (n : Nat) : Nat := isqrtLoop n (ilog2 n / 2 + 1) 0

/-- `Math.sqrt(v)` for `v ≥ 0`: the double nearest to the real square root (the
correctly rounded IEEE operation, which is what JavaScript engines compute).  With
`s = floor(sqrt(v) * 2^k) ≥ 2^55` the root lies in `[s, s + 1) / 2^k`, an interval without
doubles or midpoints of doubles in its interior, so it rounds like `s / 2^k` when it
equals it and like `(s + 1/2) / 2^k` otherwise (`flSqrt_spec`).  (The argument in
`handlePop` is a sum of squares and never negative.) -/
def flSqrt (v : ℚ) : ℚ :=
  if v ≤ 0 then 0
  else
    let p := v.num.natAbs
    let q := v.den
    let k := 56 + ilog2 q
    let n := p * 4 ^ k / q
    let s := isqrt n
    let exact : Bool := decide (p * 4 ^ k % q = 0 ∧ s * s = n)
    fl (((s : ℚ) + (if exact then 0 else 1 / 2)) / ((2 ^ k : Nat) : ℚ))

/-- `rand(min, max)`, with `u` the value its call of `Math.random()` returns. -/
def rand (u min max : ℚ) : ℚ := u * (max - min) + min

/-- `LEVELS[i]` for a JavaScript index `i`. -/
def levelAt (i : Int) : LevelConfig :=
  if i < 0 then undefinedConfig else LEVELS.getD i.toNat undefinedConfig

/-- `getLevelConfig`. -/
def getLevelConfig (s : State) : LevelConfig :=
  let idx := min (s.level - 1) ((LEVELS.length : Int) - 1)
  levelAt idx

/-- Append one effect to the log. -/
def emit (e : Effect) (s : State) : State :=
  { s with log := s.log ++ [e] }

/-- `hideAllModals`. -/
def hideAllModals (s : State) : State :=
  emit (Effect.hideModal Modal.gameOver)
    (emit (Effect.hideModal Modal.levelComplete)
      (emit (Effect.hideModal Modal.pause)
        (emit (Effect.hideModal Modal.start) s)))

/-! ## Entity factory -/

/-- `createBalloon`: the new balloon, and the state with the random calls accounted for.
The calls of `Math.random()` are made in the order of the source text: radius, golden
test, x, y, colour index (only when not golden), speed, wobble speed, wobble amount,
wobble offset. -/
def createBalloon (env : Env) (rect : Rect) (s : State) : Balloon × State :=
  let config := getLevelConfig s
  let w := rect.width
  let h := rect.height
  let k := s.randomCalls
  let radius := rand (env.random k) 22 40
  let isGolden : Bool := decide (env.random (k + 1) < 0.08)
  let x := rand (env.random (k + 2)) (radius + 10) (w - radius - 10)
  let y := h + radius + rand (env.random (k + 3)) 10 60
  let color : String :=
    if isGolden then "#ffd700"
    else config.colors.getD (mathFloor (env.random (k + 4) * config.colors.length)).toNat
      "undefined"
  let k1 := if isGolden then k + 4 else k + 5
  let b : Balloon :=
    { x := x, y := y, radius := radius, color := color,
      speed := rand (env.random k1) 40 70 * config.speed,
      wobbleSpeed := rand (env.random (k1 + 1)) 1.5 3,
      wobbleAmount := rand (env.random (k1 + 2)) 8 20,
      wobbleOffset := rand (env.random (k1 + 3)) 0 (env.pi * 2),
      time := 0, popped := false, escaped := false, golden := isGolden, opacity := 1 }
  (b, { s with randomCalls := k1 + 4 })

/-- `spawnParticles(x, y, color, count)`; each particle draws vx, vy, radius, decay. -/
def spawnParticles (env : Env) (x y : ℚ) (color : String) : Nat → State → State
  | 0, s => s
  | n + 1, s =>
    let k := s.randomCalls
    let p : Particle :=
      { x := x, y := y, vx := rand (env.random k) (-120) 120,
        vy := rand (env.random (k + 1)) (-160) 40,
        radius := rand (env.random (k + 2)) 2 5, color := color, life := 1,
        decay := rand (env.random (k + 3)) 1.5 3 }
    spawnParticles env x y color n
      { s with particles := s.particles ++ [p], randomCalls := k + 4 }

/-- `spawnPopEffect(x, y, points)`: the floating label with the awarded points. -/
def spawnPopEffect (x y : ℚ) (points : Int) (s : State) : State :=
  emit (Effect.popEffect x y points) s

/-! ## HUD, level completion, game over -/

/-- `updateHUD`. -/
def updateHUD (s : State) : State :=
  emit (Effect.hud s.score s.level s.lives s.levelPopped (getLevelConfig s).target) s

/-- `showLevelComplete`. -/
def showLevelComplete (s : State) : State :=
  let accuracy : Int :=
    if s.levelClicks > 0 then mathRound (((s.levelPopped : ℚ) / (s.levelClicks : ℚ)) * 100)
    else 0
  let starCount : Int := 1
  let starCount : Int := if accuracy ≥ 60 then 2 else starCount
  let starCount : Int := if accuracy ≥ 85 then 3 else starCount
  let bonus := starCount * 50 + s.lives * 25
  let s := { s with score := s.score + bonus }
  let nextIdx := min s.level ((LEVELS.length : Int) - 1)
  let s := emit (Effect.levelCompleteText s.levelPopped accuracy s.score bonus
    (levelAt nextIdx).name starCount) s
  let s := emit (Effect.showModal Modal.levelComplete) s
  updateHUD s

/-- `checkLevelComplete`. -/
def checkLevelComplete (s : State) : State :=
  let config := getLevelConfig s
  if s.levelPopped ≥ config.target then
    showLevelComplete { s with running := false }
  else s

/-- `triggerGameOver`. -/
def triggerGameOver (s : State) : State :=
  let s := { s with running := false }
  let s := { s with gameOver := true }
  let s :=
    if s.score > s.highScore then
      let s := { s with highScore := s.score }
      emit (Effect.storeHighScore s.highScore) s
    else s
  let s := emit (Effect.gameOverText s.score s.level s.totalPopped s.bestCombo s.highScore) s
  emit (Effect.showModal Modal.gameOver) s

/-- `resetGame`. -/
def resetGame (s : State) : State :=
  updateHUD
    { s with score := 0, level := 1, lives := 3, totalPopped := 0, levelPopped := 0,
             levelClicks := 0, bestCombo := 0, currentCombo := 0, comboTimer := 0,
             paused := false, running := false, gameOver := false, spawnTimer := 0,
             balloons := [], particles := [] }

/-- `startLevel`. -/
def startLevel (s : State) : State :=
  updateHUD
    { s with levelPopped := 0, levelClicks := 0, currentCombo := 0, comboTimer := 0,
             spawnTimer := 0, balloons := [], particles := [], running := true,
             paused := false }

/-! ## Input handling -/

/-- `getInputPos`. -/
def getInputPos (rect : Rect) (e : InputEvent) : Pos :=
  match e.touches with
  | t :: _ => { x := t.x - rect.left, y := t.y - rect.top }
  | [] => { x := e.clientX - rect.left, y := e.clientY - rect.top }

/-- Body of the `if (dist <= b.radius + 8)` branch of `handlePop`, for the balloon `b`
found at index `i`. -/
def popBalloon (env : Env) (pos : Pos) (i : Nat) (b : Balloon) (s : State) : State :=
  let s := { s with balloons := s.balloons.set i { b with popped := true } }
  let basePoints := mathRound (10 * (1 + ((s.level : ℚ) - 1) * 0.2))
  let goldenMultiplier : Int := if b.golden then 5 else 1
  let s := { s with currentCombo := s.currentCombo + 1 }
  let s := { s with comboTimer := 1.5 }
  let comboMultiplier := min s.currentCombo 5
  let s := { s with bestCombo := max s.bestCombo s.currentCombo }
  let points := basePoints * goldenMultiplier * comboMultiplier
  let s := { s with score := s.score + points }
  let s := { s with levelPopped := s.levelPopped + 1 }
  let s := { s with totalPopped := s.totalPopped + 1 }
  let s := spawnParticles env b.x b.y b.color (if b.golden then 20 else 10) s
  let s := spawnPopEffect pos.x pos.y points s
  let s := updateHUD s
  checkLevelComplete s

/-- The `for (let i = state.balloons.length - 1; i >= 0; i--)` loop of `handlePop`.
The argument `n` is the number of indices still to visit (the loop variable is `n - 1`);
the result is the state and the local flag `popped`.  The lines that compute `dx`, `dy`
and `dist` and compare `dist` with `b.radius + 8` round every operation to a double. -/
def popLoop (env : Env) (pos : Pos) : Nat → State → State × Bool
  | 0, s => (s, false)
  | i + 1, s =>
    match s.balloons[i]? with
    | none => popLoop env pos i s
    | some b =>
      if b.popped || b.escaped then popLoop env pos i s
      else
        let dx := fl (pos.x - b.x)
        let dy := fl (pos.y - b.y)
        let dist := flSqrt (fl (fl (dx * dx) + fl (dy * dy)))
        if dist ≤ fl (b.radius + 8) then
          (popBalloon env pos i b s, true)
        else popLoop env pos i s

/-- `handlePop`. -/
def handlePop (env : Env) (rect : Rect) (e : InputEvent) (s : State) : State :=
  if !s.running || s.paused then s
  else
    let s := emit Effect.preventDefault s
    let pos := getInputPos rect e
    let s := { s with levelClicks := s.levelClicks + 1 }
    let r := popLoop env pos s.balloons.length s
    if !r.2 then { r.1 with currentCombo := 0 } else r.1

/-! ## Simulation step -/

/-- Callback of `state.balloons.forEach` in `update`, with `w` the canvas width. -/
def updateBalloon (env : Env) (w dt : ℚ) (b : Balloon) (s : State) : Balloon × State :=
  if b.popped || b.escaped then (b, s)
  else
    let b := { b with time := b.time + dt }
    let b := { b with y := b.y - b.speed * dt }
    let b := { b with
      x := b.x + env.sin (b.time * b.wobbleSpeed + b.wobbleOffset) * b.wobbleAmount * dt }
    let b := { b with x := max b.radius (min (w - b.radius) b.x) }
    if b.y + b.radius < -20 then
      let b := { b with escaped := true }
      let s := { s with lives := s.lives - 1 }
      let s := updateHUD s
      let s := if s.lives ≤ 0 then triggerGameOver s else s
      (b, s)
    else (b, s)

/-- The loop `state.balloons.forEach(...)` of `update`: the balloons after the callback
ran on each, in order, and the state after all callbacks. -/
def forEachBalloon (env : Env) (w dt : ℚ) : List Balloon → State → List Balloon × State
  | [], s => ([], s)
  | b :: bs, s =>
    let r := updateBalloon env w dt b s
    let rs := forEachBalloon env w dt bs r.2
    (r.1 :: rs.1, rs.2)

/-- Callback of `state.particles.forEach` in `update`. -/
def updateParticle (dt : ℚ) (p : Particle) : Particle :=
  let p := { p with x := p.x + p.vx * dt }
  let p := { p with y := p.y + p.vy * dt }
  let p := { p with vy := p.vy + 200 * dt }
  { p with life := p.life - p.decay * dt }

/-- First block of `update`: the combo timer. -/
def updateCombo (dt : ℚ) (s : State) : State :=
  if s.comboTimer > 0 then
    let s := { s with comboTimer := s.comboTimer - dt }
    if s.comboTimer ≤ 0 then { s with currentCombo := 0 } else s
  else s

/-- Second block of `update`: the spawn timer and the spawn of one balloon. -/
def updateSpawn (env : Env) (rect : Rect) (dt : ℚ) (s : State) : State :=
  let config := getLevelConfig s
  let s := { s with spawnTimer := s.spawnTimer - dt }
  if s.spawnTimer ≤ 0 then
    let r := createBalloon env rect s
    let s := { r.2 with balloons := r.2.balloons ++ [r.1] }
    let u := env.random s.randomCalls
    { s with spawnTimer := config.spawnRate * rand u 0.6 1.2,
             randomCalls := s.randomCalls + 1 }
  else s

/-- `update(dt)`. -/
def update (env : Env) (rect : Rect) (dt : ℚ) (s : State) : State :=
  let w := rect.width
  let s := updateCombo dt s
  let s := updateSpawn env rect dt s
  let r := forEachBalloon env w dt s.balloons s
  let s := { r.2 with balloons := r.1.filter (fun b => !b.popped && !b.escaped) }
  let s := { s with particles := s.particles.map (updateParticle dt) }
  { s with particles := s.particles.filter (fun p => decide (p.life > 0)) }

/-- `gameLoop(timestamp)`; `draw()` and `requestAnimationFrame` leave `state` as it is. -/
def gameLoop (env : Env) (rect : Rect) (timestamp : ℚ) (s : State) : State :=
  let s := if s.lastTime = 0 then { s with lastTime := timestamp } else s
  let dt := min ((timestamp - s.lastTime) / 1000) 0.05
  let s := { s with lastTime := timestamp }
  if s.running && !s.paused then update env rect dt s else s

/-! ## Button and keyboard handlers -/

/-- Click handler of `btnStart`. -/
def btnStartClick (s : State) : State :=
  startLevel (resetGame (hideAllModals s))

/-- Click handler of `pauseBtn`. -/
def pauseBtnClick (s : State) : State :=
  if !s.running then s
  else
    let s := { s with paused := true }
    let s := emit (Effect.pauseText s.score s.level s.lives s.totalPopped) s
    emit (Effect.showModal Modal.pause) s

/-- Click handler of `btnResume`. -/
def btnResumeClick (s : State) : State :=
  let s := emit (Effect.hideModal Modal.pause) s
  { s with paused := false }

/-- Click handler of `btnRestartPause`. -/
def btnRestartPauseClick (s : State) : State :=
  startLevel (resetGame (hideAllModals s))

/-- Click handler of `btnNextLevel`. -/
def btnNextLevelClick (s : State) : State :=
  let s := hideAllModals s
  let s := { s with level := s.level + 1 }
  startLevel s

/-- Click handler of `btnPlayAgain`. -/
def btnPlayAgainClick (s : State) : State :=
  startLevel (resetGame (hideAllModals s))

/-- Click handler of `btnMainMenu`. -/
def btnMainMenuClick (s : State) : State :=
  emit (Effect.showModal Modal.start) (resetGame (hideAllModals s))

/-- The `keydown` listener. -/
def keydown (key : String) (s : State) : State :=
  if key = "Escape" || key = "p" || key = "P" then
    if s.running && !s.paused then pauseBtnClick s
    else if s.paused then btnResumeClick s
    else s
  else s

/-! ## Sessions -/

/-- The operations a session is made of: the button handlers, the keyboard listener, a
tap (`handlePop`) and an animation frame (`gameLoop`, which calls `update` while the game
is running and not paused). -/
inductive Op where
  | start
  | pause
  | resume
  | restart
  | nextLevel
  | playAgain
  | mainMenu
  | key (k : String)
  | tap (rect : Rect) (e : InputEvent)
  | tick (rect : Rect) (timestamp : ℚ)

/-- One operation applied to a state. -/
def step (env : Env) (op : Op) (s : State) : State :=
  match op with
  | Op.start => btnStartClick s
  | Op.pause => pauseBtnClick s
  | Op.resume => btnResumeClick s
  | Op.restart => btnRestartPauseClick s
  | Op.nextLevel => btnNextLevelClick s
  | Op.playAgain => btnPlayAgainClick s
  | Op.mainMenu => btnMainMenuClick s
  | Op.key k => keydown k s
  | Op.tap rect e => handlePop env rect e s
  | Op.tick rect timestamp => gameLoop env rect timestamp s

/-- A sequence of operations applied from left to right. -/
def run (env : Env) (ops : List Op) (s : State) : State :=
  ops.foldl (fun acc op => step env op acc) s

/-- States reachable from the initial state by a sequence of operations. -/
inductive Reachable (env : Env) (hs : Int) : State → Prop where
  | init : Reachable env hs (initState hs)
  | step (op : Op) {s : State} : Reachable env hs s → Reachable env hs (step env op s)

/-! ## Specification-side vocabulary -/

/-- A tap at `pos` hits balloon `b`, as the source decides it: the balloon is neither
popped nor escaped and the distance `Math.sqrt(dx*dx + dy*dy)` computed in double
arithmetic is at most the computed `radius + 8`. -/
def Hits (pos : Pos) (b : Balloon) : Prop :=
  b.popped = false ∧ b.escaped = false ∧
    flSqrt (fl (fl (fl (pos.x - b.x) * fl (pos.x - b.x))
      + fl (fl (pos.y - b.y) * fl (pos.y - b.y)))) ≤ fl (b.radius + 8)

instance instDecidableHits (pos : Pos) (b : Balloon) : Decidable (Hits pos b) := by
  unfold Hits; infer_instance

/-- Balloon `b` is within reach of a tap at `pos` in the exact sense: it is neither
popped nor escaped and the Euclidean distance from its centre to `pos` is at most
`radius + 8` (stated on squares, see `withinReach_iff_real`). -/
def WithinReach (pos : Pos) (b : Balloon) : Prop :=
  b.popped = false ∧ b.escaped = false ∧
    0 ≤ b.radius + 8 ∧ (pos.x - b.x) ^ 2 + (pos.y - b.y) ^ 2 ≤ (b.radius + 8) ^ 2

instance instDecidableWithinReach (pos : Pos) (b : Balloon) :
    Decidable (WithinReach pos b) := by
  unfold WithinReach; infer_instance

/-- Balloon `b` sits at index `i` of `bs`, is hit by the tap at `pos`, and no balloon at a
greater index is hit: `b` is the most recently spawned balloon under the tap. -/
def IsFrontHit (pos : Pos) (bs : List Balloon) (i : Nat) (b : Balloon) : Prop :=
  bs[i]? = some b ∧ Hits pos b ∧ ∀ j b', i < j → bs[j]? = some b' → ¬ Hits pos b'

/-- The particles pushed by `spawnParticles` for `n` iterations when `k` calls of
`Math.random()` were made before. -/
def newParticles (env : Env) (x y : ℚ) (color : String) : Nat → Nat → List Particle
  | 0, _ => []
  | n + 1, k =>
    { x := x, y := y, vx := rand (env.random k) (-120) 120,
      vy := rand (env.random (k + 1)) (-160) 40,
      radius := rand (env.random (k + 2)) 2 5, color := color, life := 1,
      decay := rand (env.random (k + 3)) 1.5 3 } :: newParticles env x y color n (k + 4)

/-- The state in which the loop of `handlePop` starts: `preventDefault` was called and
the click was counted. -/
def afterClick (s : State) : State :=
  { emit Effect.preventDefault s with levelClicks := s.levelClicks + 1 }

/-- The points the specification awards for a pop at level `L` with combo streak `c`
before the pop: base points times golden multiplier times capped combo multiplier. -/
def specPoints (L : Int) (golden : Bool) (c : Int) : Int :=
  mathRound (10 * (1 + ((L : ℚ) - 1) * 0.2)) * (if golden then 5 else 1) * min (c + 1) 5

/-! ## Sample data -/

/-- Sample surroundings: every random draw is `1/2`. -/
def sampleEnv : Env := { random := fun _ => 1 / 2, sin := fun _ => 0, pi := 22 / 7 }

/-- Sample canvas rectangle. -/
def sampleRect : Rect := { left := 0, top := 0, width := 400, height := 600 }

/-- Sample balloon in the middle of the canvas. -/
def sampleBalloon : Balloon :=
  { x := 100, y := 300, radius := 30, color := "#ff6b6b", speed := 55, wobbleSpeed := 2,
    wobbleAmount := 14, wobbleOffset := 0, time := 0, popped := false, escaped := false,
    golden := false, opacity := 1 }

/-- Sample state: a level-1 game just started, with `sampleBalloon` on screen. -/
def sampleState : State :=
  { btnStartClick (initState 0) with balloons := [sampleBalloon] }

/-- Sample mouse event inside `sampleBalloon`. -/
def sampleTap : InputEvent := { touches := [], clientX := 110, clientY := 310 }

/-- Sample mouse event far from `sampleBalloon`. -/
def sampleMiss : InputEvent := { touches := [], clientX := 300, clientY := 20 }

/-- Accuracy as the specification words it: `round(100 * levelPopped / levelClicks)` when
there were clicks, 0 otherwise. -/
def specAccuracy (levelPopped levelClicks : Int) : Int :=
  if levelClicks > 0 then mathRound (100 * (levelPopped : ℚ) / (levelClicks : ℚ)) else 0

/-- Star rating as the specification words it: 3 from 85 percent, 2 from 60 percent to
below 85 percent, 1 otherwise. -/
def specStars (accuracy : Int) : Int :=
  if accuracy ≥ 85 then 3 else if 60 ≤ accuracy ∧ accuracy < 85 then 2 else 1

/-- Canvas rectangle 40 units wide. -/
def narrowRect : Rect := { left := 0, top := 0, width := 40, height := 600 }

/-- Balloon `b` escapes in a step of length `dt`: it is active (neither popped nor
escaped) and after moving up by `speed * dt` its bottom edge `y + radius` is more than 20
units above the visible top. -/
def Escapes (dt : ℚ) (b : Balloon) : Prop :=
  b.popped = false ∧ b.escaped = false ∧ b.y - b.speed * dt + b.radius < -20

instance instDecidableEscapes (dt : ℚ) (b : Balloon) : Decidable (Escapes dt b) := by
  unfold Escapes; infer_instance

/-- What the escape branch of the `forEach` callback of `update` does to the state: one
life less, the HUD refreshed, and `triggerGameOver` when no life is left. -/
def loseLife (s : State) : State :=
  let s := { s with lives := s.lives - 1 }
  let s := updateHUD s
  if s.lives ≤ 0 then triggerGameOver s else s

/-- Number of times the game-over modal was shown in a log, which is the number of calls
of `triggerGameOver` (the only place that shows it). -/
def gameOverCount (log : List Effect) : Nat :=
  log.count (Effect.showModal Modal.gameOver)

/-- Sample balloon whose centre is at the visible top: its top edge is 30 above the top. -/
def topBalloon : Balloon := { sampleBalloon with y := 0 }

/-- Sample balloon just below the escape line: its bottom edge is 19 above the top. -/
def goneBalloon : Balloon := { sampleBalloon with y := -49 }

/-- The elapsed time `gameLoop(timestamp)` passes to `update`: the time since the last
frame in seconds (0 on the first frame), capped at 0.05. -/
def frameDt (timestamp : ℚ) (s : State) : ℚ :=
  min ((timestamp - (if s.lastTime = 0 then timestamp else s.lastTime)) / 1000) 0.05

/-- The level invariant: the level is at least 1, `levelPopped` does not exceed the
target of the current level, and stays strictly below it while the game is running. -/
def LevelInv (s : State) : Prop :=
  1 ≤ s.level ∧ s.levelPopped ≤ (getLevelConfig s).target ∧
    (s.running = true → s.levelPopped < (getLevelConfig s).target)

/-- The operations that start a level (they call `startLevel`). -/
def Op.startsLevel : Op → Bool
  | Op.start => true
  | Op.restart => true
  | Op.nextLevel => true
  | Op.playAgain => true
  | _ => false

/-! ## A session in which four balloons escape in one frame -/

/-- Random draws of the session: the speed draws of the first four balloons are chosen so
that they reach the escape line in the same frame; every golden test draws `1/2` (no
golden balloon) and every other draw is 0. -/
def raceEnv : Env :=
  { random := fun k =>
      if k = 5 then 14 / 25
      else if k = 15 then 103 / 150
      else if k = 25 then 5 / 6
      else if k = 35 then 299 / 300
      else if k % 10 = 1 then 1 / 2
      else 0,
    sin := fun _ => 0,
    pi := 355 / 113 }

/-- Frames 50 ms apart, the first `n` of them after the one at 50 ms. -/
def raceTicks (n : Nat) : List Op :=
  (List.range n).map (fun k => Op.tick sampleRect (100 + 50 * (k : ℚ)))

/-- The session: one frame on the start screen, the start button, then `n` frames. -/
def raceOps (n : Nat) : List Op :=
  Op.tick sampleRect 50 :: Op.start :: raceTicks n

/-! ## Clicks and accuracy -/

/-- The state on which the pop body of `handlePop` calls `checkLevelComplete`: the body
of `popBalloon` up to and including `updateHUD()`. -/
def popBody (env : Env) (pos : Pos) (i : Nat) (b : Balloon) (s : State) : State :=
  let s := { s with balloons := s.balloons.set i { b with popped := true } }
  let basePoints := mathRound (10 * (1 + ((s.level : ℚ) - 1) * 0.2))
  let goldenMultiplier : Int := if b.golden then 5 else 1
  let s := { s with currentCombo := s.currentCombo + 1 }
  let s := { s with comboTimer := 1.5 }
  let comboMultiplier := min s.currentCombo 5
  let s := { s with bestCombo := max s.bestCombo s.currentCombo }
  let points := basePoints * goldenMultiplier * comboMultiplier
  let s := { s with score := s.score + points }
  let s := { s with levelPopped := s.levelPopped + 1 }
  let s := { s with totalPopped := s.totalPopped + 1 }
  let s := spawnParticles env b.x b.y b.color (if b.golden then 20 else 10) s
  let s := spawnPopEffect pos.x pos.y points s
  updateHUD s

/-- The click invariant: `levelPopped` is between 0 and `levelClicks`. -/
def ClickInv (s : State) : Prop :=
  0 ≤ s.levelPopped ∧ s.levelPopped ≤ s.levelClicks

/-- A short session with every random draw `1/2`: the start button, then 14 frames 50 ms
apart; one balloon of radius 31 is spawned in the first frame and has its centre at
`(200, 630.25)` after the last. -/
def shortOps : List Op :=
  Op.start :: (List.range 14).map (fun k => Op.tick sampleRect (50 + 50 * (k : ℚ)))

/-- Mouse event near the bottom of the canvas, under the balloon of `shortOps`. -/
def bottomTap : InputEvent := { touches := [], clientX := 200, clientY := 598 }

/-- The balloon on screen at the end of `shortOps`. -/
def shortBalloon : Balloon :=
  { x := 200, y := 2521 / 4, radius := 31, color := "#ffd93d", speed := 55,
    wobbleSpeed := 9 / 4, wobbleAmount := 14, wobbleOffset := 22 / 7, time := 13 / 20,
    popped := false, escaped := false, golden := false, opacity := 1 }

/-- The entry `showLevelComplete` is expected to log for state `s`: popped count,
accuracy, new score, bonus, name of the next level and star count, as the specification
computes them. -/
def levelCompleteEntry (s : State) : Effect :=
  Effect.levelCompleteText s.levelPopped (specAccuracy s.levelPopped s.levelClicks)
    (s.score + (specStars (specAccuracy s.levelPopped s.levelClicks) * 50 + s.lives * 25))
    (specStars (specAccuracy s.levelPopped s.levelClicks) * 50 + s.lives * 25)
    (levelAt (min s.level 9)).name
    (specStars (specAccuracy s.levelPopped s.levelClicks))

/-! ## A tap on the rounding boundary -/

/-- Balloon of the smallest radius resting against the left edge of the canvas. -/
def edgeBalloon : Balloon := { sampleBalloon with x := 22, y := 300, radius := 22 }

/-- A running level-1 state with combo streak 3 and `edgeBalloon` on screen. -/
def edgeState : State :=
  { sampleState with balloons := [edgeBalloon], currentCombo := 3 }

/-- Mouse event 30 units to the right of the centre of `edgeBalloon` and `2^-30` below
it: the exact distance `sqrt(900 + 2^-60)` exceeds `radius + 8 = 30`, while in double
arithmetic `900 + 2^-60` rounds to 900 and the computed distance is 30. -/
def edgeTap : InputEvent := { touches := [], clientX := 52, clientY := 300 + 1 / 2 ^ 30 }

/-- A running level-1 state with combo streak 3 and `sampleBalloon` on screen. -/
def comboState : State := { sampleState with currentCombo := 3 }

/-! ## Basic facts -/

/-- `Math.round` of an integer is that integer. -/
theorem mathRound_intCast (n : Int) : mathRound (n : ℚ) = n := by
  unfold mathRound
  rw [Int.floor_eq_iff]
  constructor <;> norm_num

/-- The base points of level `L` are `8 + 2 * L`. -/
theorem basePoints_eq (L : Int) :
    mathRound (10 * (1 + ((L : ℚ) - 1) * 0.2)) = 8 + 2 * L := by
  have h : (10 * (1 + ((L : ℚ) - 1) * 0.2)) = ((8 + 2 * L : Int) : ℚ) := by
    push_cast; norm_num; ring
  rw [h, mathRound_intCast]

/-- Every entry of `LEVELS` has a positive target. -/
theorem levelAt_target_pos (i : Int) (h0 : 0 ≤ i) (h9 : i ≤ 9) : 0 < (levelAt i).target := by
  interval_cases i <;> simp [levelAt, LEVELS]

/-- The target of the current level is positive. -/
theorem getLevelConfig_target_pos (s : State) (h : 1 ≤ s.level) :
    0 < (getLevelConfig s).target := by
  unfold getLevelConfig
  apply levelAt_target_pos
  · simp [LEVELS]; omega
  · simp [LEVELS]

/-- `ilog2` is the binary logarithm of the library. -/
theorem ilog2Loop_eq (fuel n : Nat) (h : n ≤ fuel) : ilog2Loop fuel n = Nat.log2 n := by
  induction fuel generalizing n with
  | zero =>
    have : n = 0 := by omega
    subst this
    rw [Nat.log2]
    simp [ilog2Loop]
  | succ fuel ih =>
    rw [Nat.log2, ilog2Loop]
    by_cases h2 : 2 ≤ n
    · simp only [h2, ↓reduceIte, ge_iff_le]
      rw [ih (n / 2) (by omega)]
    · simp [h2]

/-- `ilog2` is the binary logarithm of the library. -/
theorem ilog2_eq (n : Nat) : ilog2 n = Nat.log2 n := ilog2Loop_eq n n (le_refl n)

/-- The exact reach test is the comparison of the real Euclidean distance with
`radius + 8`. -/
theorem withinReach_iff_real (pos : Pos) (b : Balloon) :
    WithinReach pos b ↔ b.popped = false ∧ b.escaped = false ∧
      Real.sqrt ((((pos.x - b.x) ^ 2 + (pos.y - b.y) ^ 2 : ℚ)) : ℝ)
        ≤ ((b.radius + 8 : ℚ) : ℝ) := by
  unfold WithinReach
  constructor
  · rintro ⟨h1, h2, hb, hle⟩
    refine ⟨h1, h2, ?_⟩
    rw [Real.sqrt_le_left (by exact_mod_cast hb)]
    exact_mod_cast hle
  · rintro ⟨h1, h2, hs⟩
    have hb : (0 : ℝ) ≤ ((b.radius + 8 : ℚ) : ℝ) := le_trans (Real.sqrt_nonneg _) hs
    refine ⟨h1, h2, by exact_mod_cast hb, ?_⟩
    have := (Real.sqrt_le_left hb).1 hs
    exact_mod_cast this

/-- `spawnParticles` appends `n` particles and makes `4 * n` random calls. -/
theorem spawnParticles_eq (env : Env) (x y : ℚ) (color : String) (n : Nat) (s : State) :
    spawnParticles env x y color n s =
      { s with particles := s.particles ++ newParticles env x y color n s.randomCalls,
               randomCalls := s.randomCalls + 4 * n } := by
  induction n generalizing s with
  | zero => simp [spawnParticles, newParticles]
  | succ n ih =>
    rw [spawnParticles, ih]
    simp [newParticles, List.append_assoc]
    omega

/-- The two tests of the loop body of `handlePop` together say that the tap hits. -/
theorem hit_test_iff (pos : Pos) (b : Balloon) :
    ((b.popped || b.escaped) = false ∧
      flSqrt (fl (fl (fl (pos.x - b.x) * fl (pos.x - b.x))
        + fl (fl (pos.y - b.y) * fl (pos.y - b.y)))) ≤ fl (b.radius + 8)) ↔ Hits pos b := by
  unfold Hits
  simp only [Bool.or_eq_false_iff]
  constructor
  · rintro ⟨⟨h1, h2⟩, h3⟩
    exact ⟨h1, h2, h3⟩
  · rintro ⟨h1, h2, h3⟩
    exact ⟨⟨h1, h2⟩, h3⟩

/-- The loop of `handlePop` leaves the state alone when no visited balloon is hit. -/
theorem popLoop_miss (env : Env) (pos : Pos) (s : State) (n : Nat)
    (h : ∀ j b', j < n → s.balloons[j]? = some b' → ¬ Hits pos b') :
    popLoop env pos n s = (s, false) := by
  induction n with
  | zero => rfl
  | succ n ih =>
    have ih' := ih (fun j b' hj => h j b' (Nat.lt_succ_of_lt hj))
    unfold popLoop
    cases hb : s.balloons[n]? with
    | none => simpa using ih'
    | some b =>
      have hn := h n b (Nat.lt_succ_self n) hb
      rw [← hit_test_iff] at hn
      simp only
      by_cases h1 : (b.popped || b.escaped) = true
      · simp [h1, ih']
      · simp only [h1, Bool.false_eq_true, ↓reduceIte]
        have h1' : (b.popped || b.escaped) = false := by simpa using h1
        have : ¬ flSqrt (fl (fl (fl (pos.x - b.x) * fl (pos.x - b.x))
            + fl (fl (pos.y - b.y) * fl (pos.y - b.y)))) ≤ fl (b.radius + 8) :=
          fun hc => hn ⟨h1', hc⟩
        simp [this, ih']

/-- The loop of `handlePop` runs its body on the front-most hit balloon and stops. -/
theorem popLoop_hit (env : Env) (pos : Pos) (s : State) (i : Nat) (b : Balloon)
    (h : IsFrontHit pos s.balloons i b) (n : Nat) (hn : i < n) :
    popLoop env pos n s = (popBalloon env pos i b s, true) := by
  induction n with
  | zero => omega
  | succ n ih =>
    obtain ⟨hb, hh, hlast⟩ := h
    unfold popLoop
    rcases Nat.lt_succ_iff_lt_or_eq.1 hn with hlt | heq
    · have ih' := ih hlt
      cases hb' : s.balloons[n]? with
      | none => simpa using ih'
      | some b' =>
        have hnh := hlast n b' hlt hb'
        rw [← hit_test_iff] at hnh
        simp only
        by_cases h1 : (b'.popped || b'.escaped) = true
        · simp [h1, ih']
        · simp only [h1, Bool.false_eq_true, ↓reduceIte]
          have h1' : (b'.popped || b'.escaped) = false := by simpa using h1
          have : ¬ flSqrt (fl (fl (fl (pos.x - b'.x) * fl (pos.x - b'.x))
              + fl (fl (pos.y - b'.y) * fl (pos.y - b'.y)))) ≤ fl (b'.radius + 8) :=
            fun hc => hnh ⟨h1', hc⟩
          simp [this, ih']
    · subst heq
      rw [hb]
      rw [← hit_test_iff] at hh
      simp [hh.1, hh.2]

/-- A front-most hit balloon sits at an index of the list. -/
theorem isFrontHit_lt {pos : Pos} {bs : List Balloon} {i : Nat} {b : Balloon}
    (h : IsFrontHit pos bs i b) : i < bs.length := by
  have := h.1
  by_contra hc
  rw [List.getElem?_eq_none (by omega)] at this
  cases this

/-- A tap with a hit runs the pop body on the front-most hit balloon. -/
theorem handlePop_hit (env : Env) (rect : Rect) (e : InputEvent) (s : State) (i : Nat)
    (b : Balloon) (hrun : s.running = true) (hp : s.paused = false)
    (h : IsFrontHit (getInputPos rect e) s.balloons i b) :
    handlePop env rect e s = popBalloon env (getInputPos rect e) i b (afterClick s) := by
  have hlt := isFrontHit_lt h
  have h' : IsFrontHit (getInputPos rect e) (afterClick s).balloons i b := h
  have := popLoop_hit env (getInputPos rect e) (afterClick s) i b h' s.balloons.length hlt
  unfold handlePop
  simp only [hrun, hp, Bool.not_true, Bool.or_false, Bool.false_eq_true, ↓reduceIte]
  unfold afterClick at this
  simp only [emit] at this ⊢
  rw [this]
  simp [afterClick, emit]

/-- A tap without a hit counts the click and resets the combo streak. -/
theorem handlePop_miss (env : Env) (rect : Rect) (e : InputEvent) (s : State)
    (hrun : s.running = true) (hp : s.paused = false)
    (h : ∀ b ∈ s.balloons, ¬ Hits (getInputPos rect e) b) :
    handlePop env rect e s = { afterClick s with currentCombo := 0 } := by
  have h' : ∀ j b', j < s.balloons.length → (afterClick s).balloons[j]? = some b' →
      ¬ Hits (getInputPos rect e) b' := by
    intro j b' _ hb
    exact h b' (List.getElem?_mem hb)
  have := popLoop_miss env (getInputPos rect e) (afterClick s) s.balloons.length h'
  unfold handlePop
  simp only [hrun, hp, Bool.not_true, Bool.or_false, Bool.false_eq_true, ↓reduceIte]
  unfold afterClick at this
  simp only [emit] at this ⊢
  rw [this]
  simp [afterClick, emit]

/-- Fields that `showLevelComplete` leaves alone. -/
theorem showLevelComplete_fields (s : State) :
    (showLevelComplete s).balloons = s.balloons ∧
    (showLevelComplete s).currentCombo = s.currentCombo ∧
    (showLevelComplete s).levelClicks = s.levelClicks ∧
    (showLevelComplete s).levelPopped = s.levelPopped ∧
    (showLevelComplete s).level = s.level ∧
    (showLevelComplete s).lives = s.lives ∧
    (showLevelComplete s).running = s.running ∧
    (showLevelComplete s).paused = s.paused ∧
    (showLevelComplete s).gameOver = s.gameOver ∧
    (showLevelComplete s).highScore = s.highScore := by
  simp [showLevelComplete, updateHUD, emit]

/-- Below the target `checkLevelComplete` does nothing. -/
theorem checkLevelComplete_of_lt (s : State) (h : s.levelPopped < (getLevelConfig s).target) :
    checkLevelComplete s = s := by
  simp [checkLevelComplete, h]

/-- At the target `checkLevelComplete` stops the game and shows the modal. -/
theorem checkLevelComplete_of_ge (s : State) (h : (getLevelConfig s).target ≤ s.levelPopped) :
    checkLevelComplete s = showLevelComplete { s with running := false } := by
  simp [checkLevelComplete, h]

/-- Fields that `checkLevelComplete` leaves alone. -/
theorem checkLevelComplete_fields (s : State) :
    (checkLevelComplete s).balloons = s.balloons ∧
    (checkLevelComplete s).currentCombo = s.currentCombo ∧
    (checkLevelComplete s).levelClicks = s.levelClicks ∧
    (checkLevelComplete s).levelPopped = s.levelPopped ∧
    (checkLevelComplete s).level = s.level ∧
    (checkLevelComplete s).lives = s.lives ∧
    (checkLevelComplete s).paused = s.paused ∧
    (checkLevelComplete s).gameOver = s.gameOver ∧
    (checkLevelComplete s).highScore = s.highScore := by
  by_cases h : s.levelPopped < (getLevelConfig s).target
  · simp [checkLevelComplete_of_lt s h]
  · rw [checkLevelComplete_of_ge s (not_lt.1 h)]
    simp [showLevelComplete_fields]

/-- After `checkLevelComplete` the game runs only if it ran and the target is not reached. -/
theorem checkLevelComplete_running (s : State) :
    (checkLevelComplete s).running =
      (s.running && decide (s.levelPopped < (getLevelConfig s).target)) := by
  by_cases h : s.levelPopped < (getLevelConfig s).target
  · simp [checkLevelComplete_of_lt s h, h]
  · rw [checkLevelComplete_of_ge s (not_lt.1 h)]
    simp [showLevelComplete_fields, h]

/-- What the pop body does to the fields other than score and log. -/
theorem popBalloon_fields (env : Env) (pos : Pos) (i : Nat) (b : Balloon) (s : State) :
    (popBalloon env pos i b s).balloons = s.balloons.set i { b with popped := true } ∧
    (popBalloon env pos i b s).currentCombo = s.currentCombo + 1 ∧
    (popBalloon env pos i b s).levelClicks = s.levelClicks ∧
    (popBalloon env pos i b s).levelPopped = s.levelPopped + 1 ∧
    (popBalloon env pos i b s).level = s.level ∧
    (popBalloon env pos i b s).lives = s.lives ∧
    (popBalloon env pos i b s).paused = s.paused ∧
    (popBalloon env pos i b s).gameOver = s.gameOver ∧
    (popBalloon env pos i b s).highScore = s.highScore := by
  unfold popBalloon
  simp only [checkLevelComplete_fields]
  simp [updateHUD, emit, spawnPopEffect, spawnParticles_eq]

/-- Either no balloon is hit or there is a front-most hit balloon. -/
theorem frontHit_scan (pos : Pos) (bs : List Balloon) (n : Nat) :
    (∀ j b', j < n → bs[j]? = some b' → ¬ Hits pos b') ∨
    ∃ i b, i < n ∧ bs[i]? = some b ∧ Hits pos b ∧
      ∀ j b', i < j → j < n → bs[j]? = some b' → ¬ Hits pos b' := by
  induction n with
  | zero => left; intro j b' hj; omega
  | succ n ih =>
    cases hb : bs[n]? with
    | none =>
      rcases ih with h | ⟨i, b, hi, h1, h2, h3⟩
      · left
        intro j b' hj hjb
        rcases Nat.lt_succ_iff_lt_or_eq.1 hj with hlt | heq
        · exact h j b' hlt hjb
        · subst heq; rw [hb] at hjb; cases hjb
      · right
        refine ⟨i, b, Nat.lt_succ_of_lt hi, h1, h2, ?_⟩
        intro j b' hij hj hjb
        rcases Nat.lt_succ_iff_lt_or_eq.1 hj with hlt | heq
        · exact h3 j b' hij hlt hjb
        · subst heq; rw [hb] at hjb; cases hjb
    | some b0 =>
      by_cases hh : Hits pos b0
      · right
        refine ⟨n, b0, Nat.lt_succ_self n, hb, hh, ?_⟩
        intro j b' hij hj; omega
      · rcases ih with h | ⟨i, b, hi, h1, h2, h3⟩
        · left
          intro j b' hj hjb
          rcases Nat.lt_succ_iff_lt_or_eq.1 hj with hlt | heq
          · exact h j b' hlt hjb
          · subst heq; rw [hb] at hjb; cases hjb; exact hh
        · right
          refine ⟨i, b, Nat.lt_succ_of_lt hi, h1, h2, ?_⟩
          intro j b' hij hj hjb
          rcases Nat.lt_succ_iff_lt_or_eq.1 hj with hlt | heq
          · exact h3 j b' hij hlt hjb
          · subst heq; rw [hb] at hjb; cases hjb; exact hh

/-- Either no balloon of the list is hit or one is the front-most hit. -/
theorem frontHit_or_none (pos : Pos) (bs : List Balloon) :
    (∀ b ∈ bs, ¬ Hits pos b) ∨ ∃ i b, IsFrontHit pos bs i b := by
  rcases frontHit_scan pos bs bs.length with h | ⟨i, b, hi, h1, h2, h3⟩
  · left
    intro b hb
    obtain ⟨j, hj, hjb⟩ := List.getElem_of_mem hb
    exact h j b hj (by rw [List.getElem?_eq_getElem hj, hjb])
  · right
    refine ⟨i, b, h1, h2, ?_⟩
    intro j b' hij hjb
    by_cases hj : j < bs.length
    · exact h3 j b' hij hj hjb
    · rw [List.getElem?_eq_none (by omega)] at hjb; cases hjb

/-- If some balloon is hit, one is the front-most hit. -/
theorem frontHit_of_hit (pos : Pos) (bs : List Balloon) (h : ∃ b ∈ bs, Hits pos b) :
    ∃ i b, IsFrontHit pos bs i b := by
  rcases frontHit_or_none pos bs with hn | hf
  · obtain ⟨b, hb, hh⟩ := h
    exact absurd hh (hn b hb)
  · exact hf

/-- `showLevelComplete` only appends to the log. -/
theorem showLevelComplete_log (s : State) : s.log <+: (showLevelComplete s).log := by
  simp only [showLevelComplete, updateHUD, emit, List.append_assoc]
  exact List.prefix_append _ _

/-- `checkLevelComplete` only appends to the log. -/
theorem checkLevelComplete_log (s : State) : s.log <+: (checkLevelComplete s).log := by
  by_cases h : s.levelPopped < (getLevelConfig s).target
  · rw [checkLevelComplete_of_lt s h]
  · rw [checkLevelComplete_of_ge s (not_lt.1 h)]
    exact showLevelComplete_log _

/-- The pop body logs the floating label with the awarded points first. -/
theorem popBalloon_log (env : Env) (pos : Pos) (i : Nat) (b : Balloon) (s : State) :
    (s.log ++ [Effect.popEffect pos.x pos.y (specPoints s.level b.golden s.currentCombo)])
      <+: (popBalloon env pos i b s).log := by
  unfold popBalloon
  refine List.IsPrefix.trans ?_ (checkLevelComplete_log _)
  simp only [updateHUD, emit, spawnPopEffect, spawnParticles_eq, specPoints]
  exact List.prefix_append _ _

/-- Below the target the pop body adds exactly the awarded points to the score. -/
theorem popBalloon_score (env : Env) (pos : Pos) (i : Nat) (b : Balloon) (s : State)
    (h : s.levelPopped + 1 < (getLevelConfig s).target) :
    (popBalloon env pos i b s).score = s.score + specPoints s.level b.golden s.currentCombo := by
  unfold popBalloon
  rw [checkLevelComplete_of_lt]
  · simp [updateHUD, emit, spawnPopEffect, spawnParticles_eq, specPoints]
  · simpa [updateHUD, emit, spawnPopEffect, spawnParticles_eq, getLevelConfig] using h

/-- The sample tap hits the sample balloon. -/
theorem sample_frontHit :
    IsFrontHit (getInputPos sampleRect sampleTap) sampleState.balloons 0 sampleBalloon := by
  refine ⟨rfl, ?_, ?_⟩
  · decide!
  · intro j b' hj hb
    have : sampleState.balloons = [sampleBalloon] := rfl
    rw [this] at hb
    rw [List.getElem?_eq_none (by simp; omega)] at hb
    cases hb

/-- The code of `showLevelComplete` computes the bonus of the specification. -/
theorem showLevelComplete_eq (s : State) :
    showLevelComplete s =
      { s with
        score := s.score +
          (specStars (specAccuracy s.levelPopped s.levelClicks) * 50 + s.lives * 25),
        log := s.log ++
          [Effect.levelCompleteText s.levelPopped (specAccuracy s.levelPopped s.levelClicks)
              (s.score + (specStars (specAccuracy s.levelPopped s.levelClicks) * 50
                + s.lives * 25))
              (specStars (specAccuracy s.levelPopped s.levelClicks) * 50 + s.lives * 25)
              (levelAt (min s.level 9)).name
              (specStars (specAccuracy s.levelPopped s.levelClicks)),
            Effect.showModal Modal.levelComplete,
            Effect.hud (s.score + (specStars (specAccuracy s.levelPopped s.levelClicks) * 50
                + s.lives * 25)) s.level s.lives s.levelPopped (getLevelConfig s).target] } := by
  have hacc : (if s.levelClicks > 0 then
      mathRound (((s.levelPopped : ℚ) / (s.levelClicks : ℚ)) * 100) else 0)
      = specAccuracy s.levelPopped s.levelClicks := by
    unfold specAccuracy
    split
    · congr 1; ring
    · rfl
  have hstars : ∀ a : Int, (if a ≥ 85 then (3 : Int) else if a ≥ 60 then 2 else 1)
      = specStars a := by
    intro a
    unfold specStars
    by_cases h85 : a ≥ 85
    · simp [h85]
    · by_cases h60 : a ≥ 60
      · have : a < 85 := by omega
        simp [h85, h60, this]
      · have : ¬ 60 ≤ a := h60
        simp [h85, h60, this]
  simp only [showLevelComplete, updateHUD, emit, hacc, hstars, getLevelConfig, LEVELS,
    List.length_cons, List.length_nil, List.append_assoc]
  simp

/-- The sample draws lie in `[0,1)`. -/
theorem sampleEnv_random (k : Nat) : 0 ≤ sampleEnv.random k ∧ sampleEnv.random k < 1 := by
  show (0 : ℚ) ≤ 1 / 2 ∧ (1 / 2 : ℚ) < 1
  constructor <;> norm_num

/-- `rand` stays between its bounds for a draw in `[0,1)`. -/
theorem rand_bounds (u lo hi : ℚ) (h0 : 0 ≤ u) (h1 : u < 1) (hle : lo ≤ hi) :
    lo ≤ rand u lo hi ∧ rand u lo hi ≤ hi := by
  unfold rand
  constructor <;> nlinarith

/-! ## The simulation step -/

/-- The callback of `forEach` changes the state only for an escaping balloon. -/
theorem updateBalloon_state (env : Env) (w dt : ℚ) (b : Balloon) (s : State) :
    (updateBalloon env w dt b s).2 = if Escapes dt b then loseLife s else s := by
  unfold updateBalloon Escapes
  by_cases h1 : (b.popped || b.escaped) = true
  · have : ¬ (b.popped = false ∧ b.escaped = false ∧ b.y - b.speed * dt + b.radius < -20) := by
      rintro ⟨hp, he, _⟩; simp [hp, he] at h1
    simp [h1, this]
  · have h1' : b.popped = false ∧ b.escaped = false := by simpa using h1
    simp only [h1, Bool.false_eq_true, ↓reduceIte]
    by_cases h2 : b.y - b.speed * dt + b.radius < -20
    · simp [h2, h1', loseLife]
    · simp [h2, h1']

/-- What the callback of `forEach` does to the balloon. -/
theorem updateBalloon_balloon (env : Env) (w dt : ℚ) (b : Balloon) (s : State) :
    (updateBalloon env w dt b s).1.popped = b.popped ∧
    (updateBalloon env w dt b s).1.radius = b.radius ∧
    ((updateBalloon env w dt b s).1.escaped = true ↔ b.escaped = true ∨ Escapes dt b) ∧
    (b.popped = false → b.escaped = false →
      (updateBalloon env w dt b s).1.y = b.y - b.speed * dt) := by
  unfold updateBalloon Escapes
  by_cases h1 : (b.popped || b.escaped) = true
  · simp only [h1, ↓reduceIte, true_and]
    constructor
    · constructor
      · intro h; exact Or.inl h
      · rintro (h | ⟨hp, he, _⟩)
        · exact h
        · simp [hp, he] at h1
    · intro hp he; simp [hp, he] at h1
  · have h1' : b.popped = false ∧ b.escaped = false := by simpa using h1
    simp only [h1, Bool.false_eq_true, ↓reduceIte]
    by_cases h2 : b.y - b.speed * dt + b.radius < -20
    · simp [h2, h1']
    · simp [h2, h1']

/-- The `forEach` loop takes one life per escaping balloon, in order. -/
theorem forEachBalloon_state (env : Env) (w dt : ℚ) (bs : List Balloon) (s : State) :
    (forEachBalloon env w dt bs s).2 = loseLife^[bs.countP (fun b => decide (Escapes dt b))] s := by
  induction bs generalizing s with
  | nil => rfl
  | cons b bs ih =>
    simp only [forEachBalloon, ih, updateBalloon_state]
    by_cases h : Escapes dt b
    · simp [h, List.countP_cons_of_pos]
    · simp [h]

/-- Every balloon after the `forEach` loop is the image of one before it. -/
theorem forEachBalloon_balloons (env : Env) (w dt : ℚ) (bs : List Balloon) (s : State) :
    ∀ b' ∈ (forEachBalloon env w dt bs s).1, ∃ b ∈ bs, ∃ st, b' = (updateBalloon env w dt b st).1 := by
  induction bs generalizing s with
  | nil => intro b' hb'; simp [forEachBalloon] at hb'
  | cons b bs ih =>
    intro b' hb'
    simp only [forEachBalloon, List.mem_cons] at hb'
    rcases hb' with h | h
    · exact ⟨b, by simp, s, h⟩
    · obtain ⟨b0, hb0, st, hst⟩ := ih _ b' h
      exact ⟨b0, by simp [hb0], st, hst⟩

/-- Fields after one lost life. -/
theorem loseLife_fields (s : State) :
    (loseLife s).lives = s.lives - 1 ∧ (loseLife s).level = s.level ∧
    (loseLife s).levelPopped = s.levelPopped ∧ (loseLife s).levelClicks = s.levelClicks ∧
    (loseLife s).score = s.score ∧ (loseLife s).paused = s.paused ∧
    (loseLife s).balloons = s.balloons ∧ (loseLife s).particles = s.particles ∧
    ((loseLife s).running = true → s.running = true) := by
  unfold loseLife
  by_cases h : s.lives - 1 ≤ 0
  · simp [updateHUD, emit, triggerGameOver, h]
    split <;> simp [emit]
  · simp [updateHUD, emit, h]

/-- Fields after `n` lost lives. -/
theorem loseLife_iterate_fields (n : Nat) (s : State) :
    (loseLife^[n] s).lives = s.lives - n ∧ (loseLife^[n] s).level = s.level ∧
    (loseLife^[n] s).levelPopped = s.levelPopped ∧
    (loseLife^[n] s).levelClicks = s.levelClicks ∧
    (loseLife^[n] s).score = s.score ∧ (loseLife^[n] s).paused = s.paused ∧
    (loseLife^[n] s).balloons = s.balloons ∧ (loseLife^[n] s).particles = s.particles ∧
    ((loseLife^[n] s).running = true → s.running = true) := by
  induction n generalizing s with
  | zero => simp
  | succ n ih =>
    rw [Function.iterate_succ_apply]
    obtain ⟨h1, h2, h3, h4, h5, h6, h7, h8, h9⟩ := ih (loseLife s)
    obtain ⟨g1, g2, g3, g4, g5, g6, g7, g8, g9⟩ := loseLife_fields s
    refine ⟨?_, ?_, ?_, ?_, ?_, ?_, ?_, ?_, ?_⟩
    · rw [h1, g1]; push_cast; ring
    · rw [h2, g2]
    · rw [h3, g3]
    · rw [h4, g4]
    · rw [h5, g5]
    · rw [h6, g6]
    · rw [h7, g7]
    · rw [h8, g8]
    · exact fun h => g9 (h9 h)

/-- Fields that the combo block of `update` leaves alone. -/
theorem updateCombo_fields (dt : ℚ) (s : State) :
    (updateCombo dt s).lives = s.lives ∧ (updateCombo dt s).level = s.level ∧
    (updateCombo dt s).levelPopped = s.levelPopped ∧
    (updateCombo dt s).levelClicks = s.levelClicks ∧
    (updateCombo dt s).score = s.score ∧ (updateCombo dt s).paused = s.paused ∧
    (updateCombo dt s).balloons = s.balloons ∧ (updateCombo dt s).running = s.running := by
  unfold updateCombo
  split
  · simp only []
    split <;> simp
  · simp

/-- Fields that the spawn block of `update` leaves alone. -/
theorem updateSpawn_fields (env : Env) (rect : Rect) (dt : ℚ) (s : State) :
    (updateSpawn env rect dt s).lives = s.lives ∧ (updateSpawn env rect dt s).level = s.level ∧
    (updateSpawn env rect dt s).levelPopped = s.levelPopped ∧
    (updateSpawn env rect dt s).levelClicks = s.levelClicks ∧
    (updateSpawn env rect dt s).score = s.score ∧ (updateSpawn env rect dt s).paused = s.paused ∧
    (updateSpawn env rect dt s).running = s.running := by
  unfold updateSpawn
  simp only []
  split
  · simp [createBalloon]
  · simp

/-- Fields after `update`: lives drop by the number of escaping balloons. -/
theorem update_fields (env : Env) (rect : Rect) (dt : ℚ) (s : State) :
    (update env rect dt s).lives = s.lives -
      ((updateSpawn env rect dt (updateCombo dt s)).balloons.countP
        (fun b => decide (Escapes dt b)) : Nat) ∧
    (update env rect dt s).level = s.level ∧
    (update env rect dt s).levelPopped = s.levelPopped ∧
    (update env rect dt s).levelClicks = s.levelClicks ∧
    (update env rect dt s).score = s.score ∧ (update env rect dt s).paused = s.paused ∧
    ((update env rect dt s).running = true → s.running = true) := by
  obtain ⟨a1, a2, a3, a4, a5, a6, a7, a8⟩ := updateCombo_fields dt s
  obtain ⟨b1, b2, b3, b4, b5, b6, b7⟩ := updateSpawn_fields env rect dt (updateCombo dt s)
  obtain ⟨c1, c2, c3, c4, c5, c6, c7, c8, c9⟩ := loseLife_iterate_fields
    ((updateSpawn env rect dt (updateCombo dt s)).balloons.countP
      (fun b => decide (Escapes dt b))) (updateSpawn env rect dt (updateCombo dt s))
  unfold update
  simp only [forEachBalloon_state]
  refine ⟨?_, ?_, ?_, ?_, ?_, ?_, ?_⟩
  · rw [c1, b1, a1]
  · rw [c2, b2, a2]
  · rw [c3, b3, a3]
  · rw [c4, b4, a4]
  · rw [c5, b5, a5]
  · rw [c6, b6, a6]
  · intro h
    have := c9 h
    rw [b7, a8] at this
    exact this

/-- The guard of `handlePop`: nothing happens unless the game runs and is not paused. -/
theorem handlePop_guard (env : Env) (rect : Rect) (e : InputEvent) (s : State)
    (h : s.running = false ∨ s.paused = true) : handlePop env rect e s = s := by
  unfold handlePop
  rcases h with h | h <;> simp [h]

/-- The guard of `handlePop` passes or it does not. -/
theorem running_cases (s : State) :
    (s.running = true ∧ s.paused = false) ∨ (s.running = false ∨ s.paused = true) := by
  cases s.running <;> cases s.paused <;> simp

/-! ## The level invariant -/

/-- The level configuration depends on the level only. -/
theorem getLevelConfig_congr {s t : State} (h : t.level = s.level) :
    getLevelConfig t = getLevelConfig s := by
  unfold getLevelConfig; rw [h]

/-- The level invariant carries over when level and `levelPopped` are kept. -/
theorem levelInv_of_same {s t : State} (hs : LevelInv s) (hl : t.level = s.level)
    (hp : t.levelPopped = s.levelPopped) (hr : t.running = true → s.running = true) :
    LevelInv t := by
  obtain ⟨h1, h2, h3⟩ := hs
  unfold LevelInv
  rw [getLevelConfig_congr hl, hl, hp]
  exact ⟨h1, h2, fun h => h3 (hr h)⟩

/-- `startLevel` establishes the level invariant. -/
theorem levelInv_startLevel (s : State) (h : 1 ≤ s.level) : LevelInv (startLevel s) := by
  have hl : (startLevel s).level = s.level := by simp [startLevel, updateHUD, emit]
  have hp : (startLevel s).levelPopped = 0 := by simp [startLevel, updateHUD, emit]
  have ht := getLevelConfig_target_pos s h
  unfold LevelInv
  rw [getLevelConfig_congr hl, hl, hp]
  exact ⟨h, le_of_lt ht, fun _ => ht⟩

/-- `resetGame` returns to level 1. -/
theorem resetGame_level (s : State) : (resetGame s).level = 1 := by
  simp [resetGame, updateHUD, emit]

/-- `resetGame` establishes the level invariant. -/
theorem levelInv_resetGame (s : State) : LevelInv (resetGame s) := by
  have hl : (resetGame s).level = 1 := resetGame_level s
  have hp : (resetGame s).levelPopped = 0 := by simp [resetGame, updateHUD, emit]
  have hr : (resetGame s).running = false := by simp [resetGame, updateHUD, emit]
  have ht := getLevelConfig_target_pos (resetGame s) (by rw [hl])
  unfold LevelInv
  rw [hl, hp, hr]
  exact ⟨le_refl _, le_of_lt ht, fun h => by cases h⟩

/-- Pausing keeps the level invariant. -/
theorem levelInv_pauseBtnClick (s : State) (h : LevelInv s) : LevelInv (pauseBtnClick s) := by
  unfold pauseBtnClick
  split
  · exact h
  · exact levelInv_of_same h (by simp [emit]) (by simp [emit]) (by simp [emit])

/-- Resuming keeps the level invariant. -/
theorem levelInv_btnResumeClick (s : State) (h : LevelInv s) : LevelInv (btnResumeClick s) :=
  levelInv_of_same h (by simp [btnResumeClick, emit]) (by simp [btnResumeClick, emit])
    (by simp [btnResumeClick, emit])

/-- A tap keeps the level invariant. -/
theorem levelInv_handlePop (env : Env) (rect : Rect) (e : InputEvent) (s : State)
    (h : LevelInv s) : LevelInv (handlePop env rect e s) := by
  rcases running_cases s with ⟨hrun, hp⟩ | hg
  · rcases frontHit_or_none (getInputPos rect e) s.balloons with hn | ⟨i, b, hf⟩
    · rw [handlePop_miss env rect e s hrun hp hn]
      exact levelInv_of_same h rfl rfl (fun hr => hr)
    · rw [handlePop_hit env rect e s i b hrun hp hf]
      obtain ⟨h1, h2, h3⟩ := h
      obtain ⟨_, _, _, f4, f5, _⟩ := popBalloon_fields env (getInputPos rect e) i b (afterClick s)
      have f5' : (popBalloon env (getInputPos rect e) i b (afterClick s)).level = s.level := f5
      have f4' : (popBalloon env (getInputPos rect e) i b (afterClick s)).levelPopped
          = s.levelPopped + 1 := f4
      have hlt := h3 hrun
      unfold LevelInv
      rw [getLevelConfig_congr f5', f5', f4']
      refine ⟨h1, by omega, ?_⟩
      intro hr
      unfold popBalloon at hr
      rw [checkLevelComplete_running] at hr
      simp only [Bool.and_eq_true, decide_eq_true_eq] at hr
      have := hr.2
      simpa [updateHUD, emit, spawnPopEffect, spawnParticles_eq, afterClick, getLevelConfig] using this
  · rw [handlePop_guard env rect e s hg]; exact h

/-- `gameLoop` records the timestamp and calls `update` while the game runs unpaused. -/
theorem gameLoop_eq (env : Env) (rect : Rect) (t : ℚ) (s : State) :
    gameLoop env rect t s =
      if s.running && !s.paused then update env rect (frameDt t s) { s with lastTime := t }
      else { s with lastTime := t } := by
  unfold gameLoop frameDt
  by_cases h0 : s.lastTime = 0 <;> simp [h0]

/-- While the game is stopped a frame only records the timestamp. -/
theorem gameLoop_idle (env : Env) (rect : Rect) (t : ℚ) (s : State) (h : s.running = false) :
    gameLoop env rect t s = { s with lastTime := t } := by
  rw [gameLoop_eq]; simp [h]

/-- A frame keeps the level invariant. -/
theorem levelInv_gameLoop (env : Env) (rect : Rect) (t : ℚ) (s : State) (h : LevelInv s) :
    LevelInv (gameLoop env rect t s) := by
  rw [gameLoop_eq]
  split
  · obtain ⟨_, f2, f3, _, _, _, f7⟩ := update_fields env rect (frameDt t s)
      { s with lastTime := t }
    exact levelInv_of_same h f2 f3 f7
  · exact levelInv_of_same h rfl rfl (fun x => x)

/-- Every operation keeps the level invariant. -/
theorem levelInv_step (env : Env) (op : Op) (s : State) (h : LevelInv s) :
    LevelInv (step env op s) := by
  cases op with
  | start => exact levelInv_startLevel _ (by rw [resetGame_level])
  | pause => exact levelInv_pauseBtnClick s h
  | resume => exact levelInv_btnResumeClick s h
  | restart => exact levelInv_startLevel _ (by rw [resetGame_level])
  | nextLevel =>
    refine levelInv_startLevel _ ?_
    have := h.1
    simp only [hideAllModals, emit]
    omega
  | playAgain => exact levelInv_startLevel _ (by rw [resetGame_level])
  | mainMenu =>
    exact levelInv_of_same (levelInv_resetGame (hideAllModals s)) rfl rfl (fun x => x)
  | key k =>
    show LevelInv (keydown k s)
    unfold keydown
    split
    · split
      · exact levelInv_pauseBtnClick s h
      · split
        · exact levelInv_btnResumeClick s h
        · exact h
    · exact h
  | tap rect e => exact levelInv_handlePop env rect e s h
  | tick rect t => exact levelInv_gameLoop env rect t s h

/-- The initial state satisfies the level invariant. -/
theorem levelInv_init (hs : Int) : LevelInv (initState hs) := by
  refine ⟨le_refl _, ?_, ?_⟩
  · show (0 : Int) ≤ 8
    decide
  · intro h; cases h

/-- Every reachable state satisfies the level invariant. -/
theorem levelInv_of_reachable {env : Env} {hs : Int} {s : State} (h : Reachable env hs s) :
    LevelInv s := by
  induction h with
  | init => exact levelInv_init hs
  | step op _ ih => exact levelInv_step env op _ ih

/-- A stopped game stays stopped under every operation that does not start a level. -/
theorem step_stays_stopped (env : Env) (op : Op) (s : State) (h : s.running = false)
    (hop : op.startsLevel = false) : (step env op s).running = false := by
  cases op with
  | start => cases hop
  | restart => cases hop
  | nextLevel => cases hop
  | playAgain => cases hop
  | pause => simp [step, pauseBtnClick, h]
  | resume => simp [step, btnResumeClick, emit, h]
  | mainMenu => simp [step, btnMainMenuClick, resetGame, updateHUD, emit]
  | key k =>
    show (keydown k s).running = false
    unfold keydown
    split
    · split
      · simp [pauseBtnClick, h]
      · split
        · simp [btnResumeClick, emit, h]
        · exact h
    · exact h
  | tap rect e =>
    show (handlePop env rect e s).running = false
    rw [handlePop_guard env rect e s (Or.inl h)]; exact h
  | tick rect t =>
    show (gameLoop env rect t s).running = false
    rw [gameLoop_idle env rect t s h]; exact h

/-! ## Sessions -/

/-- Running operations from a reachable state gives a reachable state. -/
theorem reachable_run (env : Env) (hs : Int) (ops : List Op) (s : State)
    (h : Reachable env hs s) : Reachable env hs (run env ops s) := by
  induction ops generalizing s with
  | nil => exact h
  | cons op ops ih => exact ih _ (Reachable.step op h)

/-- The draws of the four-balloon session lie in `[0,1)`. -/
theorem raceEnv_random (k : Nat) : 0 ≤ raceEnv.random k ∧ raceEnv.random k < 1 := by
  unfold raceEnv
  simp only []
  split_ifs <;> constructor <;> norm_num


/-- What one call of `triggerGameOver` does: the game stops, the game-over flag is set,
and the high score becomes the score exactly when the score is strictly greater. -/
theorem triggerGameOver_fields (s : State) :
    (triggerGameOver s).running = false ∧ (triggerGameOver s).gameOver = true ∧
    (triggerGameOver s).highScore = (if s.score > s.highScore then s.score else s.highScore) ∧
    (triggerGameOver s).lives = s.lives ∧ (triggerGameOver s).score = s.score ∧
    gameOverCount (triggerGameOver s).log = gameOverCount s.log + 1 := by
  unfold triggerGameOver gameOverCount
  by_cases h : s.score > s.highScore <;> simp [h, emit, List.count_cons]

/-! ## The click invariant -/

/-- The pop body ends with the call of `checkLevelComplete` on `popBody`. -/
theorem popBalloon_eq_check (env : Env) (pos : Pos) (i : Nat) (b : Balloon) (s : State) :
    popBalloon env pos i b s = checkLevelComplete (popBody env pos i b s) := rfl

/-- Counters of the state on which `checkLevelComplete` is called. -/
theorem popBody_fields (env : Env) (pos : Pos) (i : Nat) (b : Balloon) (s : State) :
    (popBody env pos i b s).levelClicks = s.levelClicks ∧
    (popBody env pos i b s).levelPopped = s.levelPopped + 1 ∧
    (popBody env pos i b s).level = s.level := by
  simp [popBody, updateHUD, emit, spawnPopEffect, spawnParticles_eq]

/-- With `0 ≤ levelPopped ≤ levelClicks` the accuracy lies between 0 and 100. -/
theorem specAccuracy_bounds (p c : Int) (h0 : 0 ≤ p) (h1 : p ≤ c) :
    0 ≤ specAccuracy p c ∧ specAccuracy p c ≤ 100 := by
  unfold specAccuracy
  split
  · rename_i hc
    have hc' : (0 : ℚ) < (c : ℚ) := by exact_mod_cast hc
    have hp0 : (0 : ℚ) ≤ (p : ℚ) := by exact_mod_cast h0
    have hpc : (p : ℚ) ≤ (c : ℚ) := by exact_mod_cast h1
    have hx0 : (0 : ℚ) ≤ 100 * (p : ℚ) / (c : ℚ) := by positivity
    have hx1 : 100 * (p : ℚ) / (c : ℚ) ≤ 100 := by
      rw [div_le_iff₀ hc']
      nlinarith
    unfold mathRound
    constructor
    · apply Int.floor_nonneg.2
      linarith
    · have : ⌊100 * (p : ℚ) / (c : ℚ) + 1 / 2⌋ < 101 := by
        rw [Int.floor_lt]
        push_cast
        linarith
      omega
  · constructor <;> norm_num

/-- The accuracy expression of the source, in its branch with clicks, is the accuracy of
the specification. -/
theorem specAccuracy_of_pos (p c : Int) (hc : 0 < c) :
    specAccuracy p c = mathRound (((p : ℚ) / (c : ℚ)) * 100) := by
  unfold specAccuracy
  rw [if_pos hc]
  congr 1
  ring

/-- The click invariant carries over when both counters are kept. -/
theorem clickInv_of_same {s t : State} (hs : ClickInv s) (hp : t.levelPopped = s.levelPopped)
    (hc : t.levelClicks = s.levelClicks) : ClickInv t := by
  unfold ClickInv
  rw [hp, hc]
  exact hs

/-- `startLevel` establishes the click invariant. -/
theorem clickInv_startLevel (s : State) : ClickInv (startLevel s) := by
  unfold ClickInv
  simp [startLevel, updateHUD, emit]

/-- `resetGame` establishes the click invariant. -/
theorem clickInv_resetGame (s : State) : ClickInv (resetGame s) := by
  unfold ClickInv
  simp [resetGame, updateHUD, emit]

/-- Pausing keeps the click invariant. -/
theorem clickInv_pauseBtnClick (s : State) (h : ClickInv s) : ClickInv (pauseBtnClick s) := by
  unfold pauseBtnClick
  split
  · exact h
  · exact clickInv_of_same h rfl rfl

/-- A tap keeps the click invariant: it counts a click, and a pop only with a click. -/
theorem clickInv_handlePop (env : Env) (rect : Rect) (e : InputEvent) (s : State)
    (h : ClickInv s) : ClickInv (handlePop env rect e s) := by
  rcases running_cases s with ⟨hrun, hp⟩ | hg
  · rcases frontHit_or_none (getInputPos rect e) s.balloons with hn | ⟨i, b, hf⟩
    · rw [handlePop_miss env rect e s hrun hp hn]
      obtain ⟨h0, h1⟩ := h
      refine ⟨h0, ?_⟩
      show s.levelPopped ≤ s.levelClicks + 1
      omega
    · rw [handlePop_hit env rect e s i b hrun hp hf]
      obtain ⟨h0, h1⟩ := h
      obtain ⟨_, _, f3, f4, _⟩ := popBalloon_fields env (getInputPos rect e) i b (afterClick s)
      have f3' : (popBalloon env (getInputPos rect e) i b (afterClick s)).levelClicks
          = s.levelClicks + 1 := f3
      have f4' : (popBalloon env (getInputPos rect e) i b (afterClick s)).levelPopped
          = s.levelPopped + 1 := f4
      unfold ClickInv
      rw [f3', f4']
      omega
  · rw [handlePop_guard env rect e s hg]; exact h

/-- A frame keeps the click invariant. -/
theorem clickInv_gameLoop (env : Env) (rect : Rect) (t : ℚ) (s : State) (h : ClickInv s) :
    ClickInv (gameLoop env rect t s) := by
  rw [gameLoop_eq]
  split
  · obtain ⟨_, _, f3, f4, _⟩ := update_fields env rect (frameDt t s) { s with lastTime := t }
    exact clickInv_of_same h f3 f4
  · exact clickInv_of_same h rfl rfl

/-- Every operation keeps the click invariant. -/
theorem clickInv_step (env : Env) (op : Op) (s : State) (h : ClickInv s) :
    ClickInv (step env op s) := by
  cases op with
  | start => exact clickInv_startLevel _
  | pause => exact clickInv_pauseBtnClick s h
  | resume => exact clickInv_of_same h rfl rfl
  | restart => exact clickInv_startLevel _
  | nextLevel => exact clickInv_startLevel _
  | playAgain => exact clickInv_startLevel _
  | mainMenu => exact clickInv_of_same (clickInv_resetGame (hideAllModals s)) rfl rfl
  | key k =>
    show ClickInv (keydown k s)
    unfold keydown
    split
    · split
      · exact clickInv_pauseBtnClick s h
      · split
        · exact clickInv_of_same h rfl rfl
        · exact h
    · exact h
  | tap rect e => exact clickInv_handlePop env rect e s h
  | tick rect t => exact clickInv_gameLoop env rect t s h

/-- Every reachable state satisfies the click invariant. -/
theorem clickInv_of_reachable {env : Env} {hs : Int} {s : State} (h : Reachable env hs s) :
    ClickInv s := by
  induction h with
  | init => exact ⟨le_refl _, le_refl _⟩
  | step op _ ih => exact clickInv_step env op _ ih

/-- `showLevelComplete` logs the expected entry right after the log it starts with. -/
theorem showLevelComplete_entry (s : State) :
    (s.log ++ [levelCompleteEntry s]) <+: (showLevelComplete s).log := by
  rw [showLevelComplete_eq]
  simp only [levelCompleteEntry]
  exact ⟨[Effect.showModal Modal.levelComplete,
    Effect.hud (s.score + (specStars (specAccuracy s.levelPopped s.levelClicks) * 50
      + s.lives * 25)) s.level s.lives s.levelPopped (getLevelConfig s).target], by simp⟩

/-- The balloon list at the end of the short session. -/
theorem shortOps_balloons : (run sampleEnv shortOps (initState 0)).balloons = [shortBalloon] := by
  decide!

/-- The tap at the bottom of the canvas hits the balloon of the short session. -/
theorem short_frontHit :
    IsFrontHit (getInputPos sampleRect bottomTap)
      (run sampleEnv shortOps (initState 0)).balloons 0 shortBalloon := by
  rw [shortOps_balloons]
  refine ⟨rfl, by decide!, ?_⟩
  intro j b' hj hb
  rw [List.getElem?_eq_none (by simp; omega)] at hb
  cases hb

/-! ## Facts about the double arithmetic -/

/-- `roundHalfEven p q` is an integer nearest to `p / q`. -/
theorem roundHalfEven_spec (p q : Nat) (hq : 0 < q) :
    2 * (((roundHalfEven p q : Nat) : Int) * q - p).natAbs ≤ q := by
  have hdm : q * (p / q) + p % q = p := Nat.div_add_mod p q
  have hr : p % q < q := Nat.mod_lt p hq
  generalize hn : p / q = n at hdm
  generalize hrr : p % q = r at hdm hr
  have hp : (p : Int) = q * n + r := by exact_mod_cast hdm.symm
  unfold roundHalfEven
  simp only [hn, hrr]
  have key0 : ((n : Int) * q - p).natAbs = r := by
    rw [hp]
    have : (n : Int) * q - (q * n + r) = -(r : Int) := by ring
    rw [this]; simp
  have key1 : (((n + 1 : Nat) : Int) * q - p).natAbs = q - r := by
    rw [hp]
    have : ((n + 1 : Nat) : Int) * q - (q * n + r) = ((q - r : Nat) : Int) := by
      push_cast [Nat.cast_sub (le_of_lt hr)]; ring
    rw [this]; simp
  split_ifs with h1 h2 h3
  · rw [key0]; omega
  · rw [key1]; omega
  · rw [key0]; omega
  · rw [key1]; omega

/-- Invariant of the square-root loop. -/
theorem isqrtLoop_spec (n k r : Nat) (h1 : r * r ≤ n) (h2 : n < (r + 2 ^ k) * (r + 2 ^ k)) :
    isqrtLoop n k r * isqrtLoop n k r ≤ n ∧
      n < (isqrtLoop n k r + 1) * (isqrtLoop n k r + 1) := by
  induction k generalizing r with
  | zero => simpa [isqrtLoop] using ⟨h1, h2⟩
  | succ k ih =>
    rw [isqrtLoop]
    split_ifs with h
    · apply ih _ h
      have : r + 2 ^ k + 2 ^ k = r + 2 ^ (k + 1) := by rw [pow_succ]; ring
      rw [this]; exact h2
    · exact ih _ h1 (not_le.1 h)

/-- `isqrt n` is the square root of `n` rounded down. -/
theorem isqrt_spec (n : Nat) : isqrt n * isqrt n ≤ n ∧ n < (isqrt n + 1) * (isqrt n + 1) := by
  unfold isqrt
  apply isqrtLoop_spec
  · simp
  · rw [ilog2_eq]
    have h := @Nat.lt_log2_self n
    have h2 : n.log2 + 1 ≤ 2 * (n.log2 / 2 + 1) := by omega
    have h3 : 2 ^ (n.log2 + 1) ≤ 2 ^ (2 * (n.log2 / 2 + 1)) :=
      Nat.pow_le_pow_right (by norm_num) h2
    have h4 : (0 + 2 ^ (n.log2 / 2 + 1)) * (0 + 2 ^ (n.log2 / 2 + 1))
        = 2 ^ (2 * (n.log2 / 2 + 1)) := by
      rw [Nat.zero_add, ← pow_add]; congr 1; ring
    rw [h4]; omega

/-- Known values of the double arithmetic: `0.1`, absorption of `2^-60` by 900, the
square roots of 2 and of 900, and a tie rounded to the even significand. -/
theorem fl_known_values :
    fl (1 / 10) = 3602879701896397 / 36028797018963968 ∧
    fl (900 + 1 / 2 ^ 60) = 900 ∧
    fl (9007199254740993) = 9007199254740992 ∧
    fl (9007199254740995) = 9007199254740996 ∧
    fl (1 / 3) = 6004799503160661 / 18014398509481984 ∧
    flSqrt 2 = 6369051672525773 / 4503599627370496 ∧
    flSqrt 900 = 30 ∧
    fl (22 + 8) = 30 := by
  decide!

/-- On a tie `roundHalfEven` returns the even neighbour. -/
theorem roundHalfEven_tie (p q : Nat) (h : 2 * (p % q) = q) : roundHalfEven p q % 2 = 0 := by
  unfold roundHalfEven
  simp only [h, lt_self_iff_false, ↓reduceIte]
  split_ifs with h1
  · exact h1
  · omega

/-- `log2Floor p q` is the exponent `E` with `2^E ≤ p / q < 2^(E+1)`. -/
theorem log2Floor_spec (p q : Nat) (hp : 0 < p) (hq : 0 < q) :
    (0 ≤ log2Floor p q →
      q * 2 ^ (log2Floor p q).toNat ≤ p ∧ p < q * 2 ^ ((log2Floor p q).toNat + 1)) ∧
    (log2Floor p q < 0 →
      q ≤ p * 2 ^ (-(log2Floor p q)).toNat ∧ p * 2 ^ (-(log2Floor p q)).toNat < 2 * q) := by
  have ha1 : 2 ^ p.log2 ≤ p := Nat.log2_self_le (by omega)
  have ha2 : p < 2 ^ (p.log2 + 1) := Nat.lt_log2_self
  have hb1 : 2 ^ q.log2 ≤ q := Nat.log2_self_le (by omega)
  have hb2 : q < 2 ^ (q.log2 + 1) := Nat.lt_log2_self
  unfold log2Floor
  simp only [ilog2_eq]
  generalize p.log2 = a at *
  generalize q.log2 = b at *
  by_cases hab : b ≤ a
  · obtain ⟨d, rfl⟩ := Nat.exists_eq_add_of_le hab
    simp only [hab, ↓reduceIte, Nat.add_sub_cancel_left]
    have e1 : 2 ^ (b + d) = 2 ^ b * 2 ^ d := pow_add 2 b d
    have e2 : 2 ^ (b + d + 1) = 2 * (2 ^ b * 2 ^ d) := by rw [pow_succ, e1]; ring
    have e3 : 2 ^ (b + 1) = 2 * 2 ^ b := by rw [pow_succ]; ring
    rw [e1] at ha1
    rw [e2] at ha2
    rw [e3] at hb2
    have hd : 0 < 2 ^ d := Nat.pow_pos (by norm_num)
    by_cases hc : q * 2 ^ d ≤ p
    · simp only [hc, ↓reduceIte]
      constructor
      · intro _
        simp only [Int.toNat_ofNat]
        refine ⟨hc, ?_⟩
        rw [pow_succ]
        nlinarith
      · intro h; omega
    · simp only [hc, ↓reduceIte]
      have hc' : p < q * 2 ^ d := not_le.1 hc
      cases d with
      | zero =>
        simp only [pow_zero, Nat.mul_one] at *
        constructor
        · intro h; omega
        · intro _
          have : (-(((0 : Nat) : Int) - 1)).toNat = 1 := by decide
          rw [this]
          omega
      | succ d =>
        have e4 : 2 ^ (d + 1) = 2 * 2 ^ d := by rw [pow_succ]; ring
        rw [e4] at ha1 ha2 hc'
        have hd' : 0 < 2 ^ d := Nat.pow_pos (by norm_num)
        constructor
        · intro _
          have : (((d + 1 : Nat) : Int) - 1).toNat = d := by omega
          rw [this]
          refine ⟨by nlinarith, ?_⟩
          rw [e4]; nlinarith
        · intro h; omega
  · have hba : a < b := not_le.1 hab
    obtain ⟨d, rfl⟩ := Nat.exists_eq_add_of_lt hba
    simp only [hab, ↓reduceIte]
    have hsub : a + d + 1 - a = d + 1 := by omega
    rw [hsub]
    have e1 : 2 ^ (a + d + 1) = 2 ^ a * 2 ^ (d + 1) := by rw [← pow_add]; congr 1
    have e2 : 2 ^ (a + d + 1 + 1) = 2 * (2 ^ a * 2 ^ (d + 1)) := by rw [pow_succ, e1]; ring
    have e3 : 2 ^ (a + 1) = 2 * 2 ^ a := by rw [pow_succ]; ring
    rw [e1] at hb1
    rw [e2] at hb2
    rw [e3] at ha2
    have hd : 0 < 2 ^ (d + 1) := Nat.pow_pos (by norm_num)
    by_cases hc : q ≤ p * 2 ^ (d + 1)
    · simp only [hc, ↓reduceIte]
      constructor
      · intro h; omega
      · intro _
        have : (-(-((d + 1 : Nat) : Int))).toNat = d + 1 := by omega
        rw [this]
        refine ⟨hc, by nlinarith⟩
    · simp only [hc, ↓reduceIte]
      have hc' : p * 2 ^ (d + 1) < q := not_le.1 hc
      constructor
      · intro h; omega
      · intro _
        have : (-(-((d + 1 : Nat) : Int) - 1)).toNat = d + 1 + 1 := by omega
        rw [this]
        have e5 : 2 ^ (d + 1 + 1) = 2 * 2 ^ (d + 1) := by rw [pow_succ]; ring
        rw [e5]
        refine ⟨by nlinarith, by nlinarith⟩

/-- An upper bound on the quotient carries over to `roundHalfEven`. -/
theorem roundHalfEven_le (p q b : Nat) (hq : 0 < q) (h : p < q * b) :
    roundHalfEven p q ≤ b := by
  have hn : p / q < b := (Nat.div_lt_iff_lt_mul hq).2 (by rw [Nat.mul_comm] at h; exact h)
  unfold roundHalfEven
  simp only
  split_ifs <;> omega

/-- A lower bound on the quotient carries over to `roundHalfEven`. -/
theorem roundHalfEven_ge (p q b : Nat) (hq : 0 < q) (h : q * b ≤ p) :
    b ≤ roundHalfEven p q := by
  have hn : b ≤ p / q := (Nat.le_div_iff_mul_le hq).2 (by rw [Nat.mul_comm]; exact h)
  unfold roundHalfEven
  simp only
  split_ifs <;> omega

/-- `roundHalfEven p q` is within `1/2` of `p / q`. -/
theorem roundHalfEven_err (p q : Nat) (hq : 0 < q) :
    2 * |((roundHalfEven p q : Nat) : ℚ) - (p : ℚ) / (q : ℚ)| ≤ 1 := by
  have h := roundHalfEven_spec p q hq
  have hq' : (0 : ℚ) < (q : ℚ) := by exact_mod_cast hq
  have h1 : ((((roundHalfEven p q : Nat) : Int) * q - p).natAbs : ℚ)
      = |((roundHalfEven p q : Nat) : ℚ) * q - p| := by
    rw [Nat.cast_natAbs]; push_cast; rfl
  have h2 : 2 * |((roundHalfEven p q : Nat) : ℚ) * q - p| ≤ q := by
    rw [← h1]; exact_mod_cast h
  have h3 : ((roundHalfEven p q : Nat) : ℚ) - (p : ℚ) / (q : ℚ)
      = (((roundHalfEven p q : Nat) : ℚ) * q - p) / q := by
    field_simp
  rw [h3, abs_div, abs_of_pos hq']
  rw [← mul_div_assoc, div_le_one hq']
  exact h2

/-- Error of the rounding at a non-negative exponent `k`. -/
theorem fl_core_nonneg (p q k : Nat) (hq : 0 < q) :
    2 * |scale2 (roundHalfEven p (q * 2 ^ k)) (k : Int) - (p : ℚ) / (q : ℚ)|
      ≤ scale2 1 (k : Int) := by
  have hk : (0 : ℚ) < ((2 ^ k : Nat) : ℚ) := by positivity
  have hq' : (0 : ℚ) < (q : ℚ) := by exact_mod_cast hq
  have herr := roundHalfEven_err p (q * 2 ^ k) (Nat.mul_pos hq (Nat.pow_pos (by norm_num)))
  have hs : ∀ n : Nat, scale2 n (k : Int) = (n : ℚ) * ((2 ^ k : Nat) : ℚ) := by
    intro n
    unfold scale2
    simp
  rw [hs, hs]
  have h3 : ((roundHalfEven p (q * 2 ^ k) : Nat) : ℚ) * ((2 ^ k : Nat) : ℚ) - (p : ℚ) / (q : ℚ)
      = (((roundHalfEven p (q * 2 ^ k) : Nat) : ℚ) - (p : ℚ) / ((q * 2 ^ k : Nat) : ℚ))
        * ((2 ^ k : Nat) : ℚ) := by
    push_cast
    field_simp
    ring
  rw [h3, abs_mul, abs_of_pos hk]
  nlinarith

/-- Error of the rounding at a negative exponent `-k`. -/
theorem fl_core_neg (p q k : Nat) (hq : 0 < q) (hk0 : 0 < k) :
    2 * |scale2 (roundHalfEven (p * 2 ^ k) q) (-(k : Int)) - (p : ℚ) / (q : ℚ)|
      ≤ scale2 1 (-(k : Int)) := by
  have hk : (0 : ℚ) < ((2 ^ k : Nat) : ℚ) := by positivity
  have hq' : (0 : ℚ) < (q : ℚ) := by exact_mod_cast hq
  have herr := roundHalfEven_err (p * 2 ^ k) q hq
  have hs : ∀ n : Nat, scale2 n (-(k : Int)) = (n : ℚ) / ((2 ^ k : Nat) : ℚ) := by
    intro n
    unfold scale2
    have : ¬ (0 : Int) ≤ -(k : Int) := by omega
    simp [this]
  rw [hs, hs]
  have h3 : ((roundHalfEven (p * 2 ^ k) q : Nat) : ℚ) / ((2 ^ k : Nat) : ℚ) - (p : ℚ) / (q : ℚ)
      = (((roundHalfEven (p * 2 ^ k) q : Nat) : ℚ) - ((p * 2 ^ k : Nat) : ℚ) / (q : ℚ))
        / ((2 ^ k : Nat) : ℚ) := by
    push_cast
    field_simp
    ring
  rw [h3, abs_div, abs_of_pos hk]
  rw [Nat.cast_one, ← mul_div_assoc, div_le_div_iff_of_pos_right hk]
  exact herr

/-- The absolute value of a rational is `|num| / den`. -/
theorem abs_eq_natAbs_div (x : ℚ) : |x| = (x.num.natAbs : ℚ) / (x.den : ℚ) := by
  have h : (x.num : ℚ) / (x.den : ℚ) = x := Rat.num_div_den x
  have hd : (0 : ℚ) < (x.den : ℚ) := by exact_mod_cast x.den_pos
  conv_lhs => rw [← h]
  rw [abs_div, abs_of_pos hd, Nat.cast_natAbs, Int.cast_abs]

/-- The significand chosen by `fl` has at most 53 bits (or is `2^53`). -/
theorem fl_significand_le (p q : Nat) (hp : 0 < p) (hq : 0 < q) :
    (if 0 ≤ max (log2Floor p q - 52) (-1074) then
        roundHalfEven p (q * 2 ^ (max (log2Floor p q - 52) (-1074)).toNat)
      else roundHalfEven (p * 2 ^ (-(max (log2Floor p q - 52) (-1074))).toNat) q)
      ≤ 2 ^ 53 := by
  obtain ⟨s1, s2⟩ := log2Floor_spec p q hp hq
  generalize log2Floor p q = E at *
  rcases le_or_lt 52 E with hA | hA
  · obtain ⟨k, rfl⟩ : ∃ k : Nat, E = (k : Int) + 52 := ⟨(E - 52).toNat, by omega⟩
    have he : max ((k : Int) + 52 - 52) (-1074) = (k : Int) := by
      rw [max_eq_left (by omega)]; omega
    rw [he]
    simp only [Int.natCast_nonneg, ↓reduceIte, Int.toNat_ofNat]
    obtain ⟨-, s12⟩ := s1 (by omega)
    have ht : ((k : Int) + 52).toNat + 1 = k + 53 := by omega
    rw [ht, pow_add] at s12
    apply roundHalfEven_le _ _ _ (Nat.mul_pos hq (Nat.pow_pos (by norm_num)))
    rw [Nat.mul_assoc]; exact s12
  · rcases le_or_lt 0 E with hB | hB
    · obtain ⟨n, rfl⟩ : ∃ n : Nat, E = (n : Int) := ⟨E.toNat, by omega⟩
      obtain ⟨k, hk⟩ : ∃ k : Nat, n + k = 52 := ⟨52 - n, by omega⟩
      have he : max ((n : Int) - 52) (-1074) = -(k : Int) := by
        rw [max_eq_left (by omega)]; omega
      rw [he]
      have hneg : ¬ (0 : Int) ≤ -(k : Int) := by omega
      simp only [hneg, ↓reduceIte, neg_neg, Int.toNat_ofNat]
      obtain ⟨-, s12⟩ := s1 (by omega)
      simp only [Int.toNat_ofNat] at s12
      apply roundHalfEven_le _ _ _ hq
      have h53 : 2 ^ 53 = 2 ^ (n + 1) * 2 ^ k := by
        rw [← pow_add]; congr 1; omega
      rw [h53, ← Nat.mul_assoc]
      exact Nat.mul_lt_mul_of_pos_right s12 (Nat.pow_pos (by norm_num))
    · obtain ⟨j, rfl⟩ : ∃ j : Nat, E = -(j : Int) := ⟨(-E).toNat, by omega⟩
      obtain ⟨s21, s22⟩ := s2 (by omega)
      simp only [neg_neg, Int.toNat_ofNat] at s21 s22
      rcases le_or_lt j 1022 with hC | hC
      · have he : max (-(j : Int) - 52) (-1074) = -((j + 52 : Nat) : Int) := by
          rw [max_eq_left (by omega)]; push_cast; ring
        rw [he]
        have hneg : ¬ (0 : Int) ≤ -((j + 52 : Nat) : Int) := by omega
        simp only [hneg, ↓reduceIte, neg_neg, Int.toNat_ofNat]
        apply roundHalfEven_le _ _ _ hq
        rw [pow_add, ← Nat.mul_assoc]
        have : p * 2 ^ j * 2 ^ 52 < 2 * q * 2 ^ 52 :=
          Nat.mul_lt_mul_of_pos_right s22 (Nat.pow_pos (by norm_num))
        have h53 : q * 2 ^ 53 = 2 * q * 2 ^ 52 := by ring
        rw [h53]; exact this
      · have he : max (-(j : Int) - 52) (-1074) = -((1074 : Nat) : Int) := by
          rw [max_eq_right (by omega)]; rfl
        rw [he]
        have hneg : ¬ (0 : Int) ≤ -((1074 : Nat) : Int) := by omega
        simp only [hneg, ↓reduceIte, neg_neg, Int.toNat_ofNat]
        apply roundHalfEven_le _ _ _ hq
        rcases le_or_lt 1074 j with hD | hD
        · have h1 : p * 2 ^ 1074 ≤ p * 2 ^ j :=
            Nat.mul_le_mul_left p (Nat.pow_le_pow_right (by norm_num) hD)
          have h2 : 2 * q ≤ q * 2 ^ 53 := by
            have : 2 ≤ 2 ^ 53 := by norm_num
            nlinarith
          omega
        · obtain ⟨i, hi⟩ : ∃ i : Nat, j + i = 1074 := ⟨1074 - j, by omega⟩
          have h1 : p * 2 ^ 1074 = p * 2 ^ j * 2 ^ i := by
            rw [← hi, pow_add, Nat.mul_assoc]
          have h2 : p * 2 ^ j * 2 ^ i < 2 * q * 2 ^ i :=
            Nat.mul_lt_mul_of_pos_right s22 (Nat.pow_pos (by norm_num))
          have h3 : 2 ^ i ≤ 2 ^ 51 := Nat.pow_le_pow_right (by norm_num) (by omega)
          have h4 : 2 * q * 2 ^ i ≤ q * 2 ^ 53 := by
            have : q * 2 ^ 53 = 2 * q * (2 ^ 52) := by ring
            rw [this]
            apply Nat.mul_le_mul_left
            calc 2 ^ i ≤ 2 ^ 51 := h3
              _ ≤ 2 ^ 52 := by norm_num
          omega

/-- The significand chosen by `fl` has its top bit set, unless the exponent is the
smallest one (subnormal numbers). -/
theorem fl_significand_ge (p q : Nat) (hp : 0 < p) (hq : 0 < q) :
    2 ^ 52 ≤ (if 0 ≤ max (log2Floor p q - 52) (-1074) then
        roundHalfEven p (q * 2 ^ (max (log2Floor p q - 52) (-1074)).toNat)
      else roundHalfEven (p * 2 ^ (-(max (log2Floor p q - 52) (-1074))).toNat) q) ∨
    max (log2Floor p q - 52) (-1074) = -1074 := by
  obtain ⟨s1, s2⟩ := log2Floor_spec p q hp hq
  generalize log2Floor p q = E at *
  rcases le_or_lt 52 E with hA | hA
  · left
    obtain ⟨k, rfl⟩ : ∃ k : Nat, E = (k : Int) + 52 := ⟨(E - 52).toNat, by omega⟩
    have he : max ((k : Int) + 52 - 52) (-1074) = (k : Int) := by
      rw [max_eq_left (by omega)]; omega
    rw [he]
    simp only [Int.natCast_nonneg, ↓reduceIte, Int.toNat_ofNat]
    obtain ⟨s11, -⟩ := s1 (by omega)
    have ht : ((k : Int) + 52).toNat = k + 52 := by omega
    rw [ht, pow_add] at s11
    apply roundHalfEven_ge _ _ _ (Nat.mul_pos hq (Nat.pow_pos (by norm_num)))
    rw [Nat.mul_assoc]; exact s11
  · rcases le_or_lt 0 E with hB | hB
    · left
      obtain ⟨n, rfl⟩ : ∃ n : Nat, E = (n : Int) := ⟨E.toNat, by omega⟩
      obtain ⟨k, hk⟩ : ∃ k : Nat, n + k = 52 := ⟨52 - n, by omega⟩
      have he : max ((n : Int) - 52) (-1074) = -(k : Int) := by
        rw [max_eq_left (by omega)]; omega
      rw [he]
      have hneg : ¬ (0 : Int) ≤ -(k : Int) := by omega
      simp only [hneg, ↓reduceIte, neg_neg, Int.toNat_ofNat]
      obtain ⟨s11, -⟩ := s1 (by omega)
      simp only [Int.toNat_ofNat] at s11
      apply roundHalfEven_ge _ _ _ hq
      have h52 : 2 ^ 52 = 2 ^ n * 2 ^ k := by
        rw [← pow_add]; congr 1; omega
      rw [h52, ← Nat.mul_assoc]
      exact Nat.mul_le_mul_right _ s11
    · obtain ⟨j, rfl⟩ : ∃ j : Nat, E = -(j : Int) := ⟨(-E).toNat, by omega⟩
      obtain ⟨s21, s22⟩ := s2 (by omega)
      simp only [neg_neg, Int.toNat_ofNat] at s21 s22
      rcases le_or_lt j 1022 with hC | hC
      · left
        have he : max (-(j : Int) - 52) (-1074) = -((j + 52 : Nat) : Int) := by
          rw [max_eq_left (by omega)]; push_cast; ring
        rw [he]
        have hneg : ¬ (0 : Int) ≤ -((j + 52 : Nat) : Int) := by omega
        simp only [hneg, ↓reduceIte, neg_neg, Int.toNat_ofNat]
        apply roundHalfEven_ge _ _ _ hq
        rw [pow_add, ← Nat.mul_assoc]
        exact Nat.mul_le_mul_right _ s21
      · right
        exact max_eq_right (by omega)

/-- The value chosen by `fl` is within half a step of its grid from `p / q`. -/
theorem fl_error (p q : Nat) (hq : 0 < q) :
    2 * |scale2 (if 0 ≤ max (log2Floor p q - 52) (-1074) then
          roundHalfEven p (q * 2 ^ (max (log2Floor p q - 52) (-1074)).toNat)
        else roundHalfEven (p * 2 ^ (-(max (log2Floor p q - 52) (-1074))).toNat) q)
        (max (log2Floor p q - 52) (-1074)) - (p : ℚ) / (q : ℚ)|
      ≤ scale2 1 (max (log2Floor p q - 52) (-1074)) := by
  generalize max (log2Floor p q - 52) (-1074) = e
  rcases le_or_lt 0 e with h | h
  · obtain ⟨k, rfl⟩ : ∃ k : Nat, e = (k : Int) := ⟨e.toNat, by omega⟩
    simp only [Int.natCast_nonneg, ↓reduceIte, Int.toNat_ofNat]
    exact fl_core_nonneg p q k hq
  · obtain ⟨k, rfl⟩ : ∃ k : Nat, e = -(k : Int) := ⟨(-e).toNat, by omega⟩
    have hneg : ¬ (0 : Int) ≤ -(k : Int) := by omega
    simp only [hneg, ↓reduceIte, neg_neg, Int.toNat_ofNat]
    exact fl_core_neg p q k hq (by omega)

/-- `fl x` is a double nearest to `x`: it is `± m * 2^e` with a significand `m ≤ 2^53`
on the grid of spacing `2^e` that belongs to the binade of `x` (`2^52 ≤ m`, or the
subnormal grid `e = -1074`), and it is within half a grid step of `x`. -/
theorem fl_spec (x : ℚ) (hx : x ≠ 0) :
    ∃ (m : Nat) (e : Int), -1074 ≤ e ∧ m ≤ 2 ^ 53 ∧ (2 ^ 52 ≤ m ∨ e = -1074) ∧
      fl x = (if x < 0 then -(scale2 m e) else scale2 m e) ∧
      2 * |scale2 m e - (|x|)| ≤ scale2 1 e := by
  have hp : 0 < x.num.natAbs := Int.natAbs_pos.2 (Rat.num_ne_zero.2 hx)
  have hq : 0 < x.den := x.den_pos
  refine ⟨_, _, le_max_right _ _, fl_significand_le _ _ hp hq, fl_significand_ge _ _ hp hq,
    ?_, ?_⟩
  · unfold fl
    rw [if_neg hx]
  · rw [abs_eq_natAbs_div x]
    exact fl_error _ _ hq

/-- A root of a number from `2^110` on is at least `2^55`. -/
theorem isqrt_ge (n : Nat) (h : 2 ^ 110 ≤ n) : 2 ^ 55 ≤ isqrt n := by
  obtain ⟨-, hs2⟩ := isqrt_spec n
  by_contra hc
  have hc' : isqrt n + 1 ≤ 2 ^ 55 := Nat.succ_le_of_lt (not_le.1 hc)
  have h1 : (isqrt n + 1) * (isqrt n + 1) ≤ 2 ^ 55 * 2 ^ 55 := Nat.mul_le_mul hc' hc'
  have h4 : (2 : Nat) ^ 55 * 2 ^ 55 = 2 ^ 110 := by rw [← pow_add]
  rw [h4] at h1
  exact absurd (lt_of_lt_of_le hs2 (le_trans h1 h)) (lt_irrefl _)

/-- The scaled quotient whose root `flSqrt` takes is at least `2^110`. -/
theorem sqrt_quotient_ge (p q : Nat) (hp : 0 < p) (hq : 0 < q) :
    2 ^ 110 ≤ p * 4 ^ (56 + q.log2) / q := by
  have hb2 : q < 2 ^ (q.log2 + 1) := Nat.lt_log2_self
  have e1 : (4 : Nat) ^ (56 + q.log2) = 2 ^ 110 * (2 ^ (q.log2 + 1) * (2 * 2 ^ q.log2)) := by
    have : (4 : Nat) = 2 ^ 2 := by norm_num
    rw [this, ← pow_mul, ← pow_succ', ← pow_add, ← pow_add]
    congr 1; omega
  have hpos : 0 < 2 * 2 ^ q.log2 := by positivity
  have h2 : q * 2 ^ 110 ≤ p * 4 ^ (56 + q.log2) := by
    rw [e1]
    calc q * 2 ^ 110 ≤ 2 ^ (q.log2 + 1) * 2 ^ 110 := Nat.mul_le_mul_right _ (le_of_lt hb2)
      _ = 1 * (2 ^ 110 * (2 ^ (q.log2 + 1) * 1)) := by ring
      _ ≤ p * (2 ^ 110 * (2 ^ (q.log2 + 1) * (2 * 2 ^ q.log2))) := by
          apply Nat.mul_le_mul hp
          apply Nat.mul_le_mul_left
          apply Nat.mul_le_mul_left
          exact hpos
  exact (Nat.le_div_iff_mul_le hq).2 (by rw [Nat.mul_comm]; exact h2)

/-- `flSqrt v` rounds a stand-in for the real square root: with `s` and `k` as computed,
`2^55 ≤ s` and `s^2 ≤ v * 4^k < (s + 1)^2`, that is `s / 2^k ≤ sqrt v < (s + 1) / 2^k`;
the stand-in is `s / 2^k` when that is the root exactly and `(s + 1/2) / 2^k` otherwise. -/
theorem flSqrt_spec (v : ℚ) (hv : 0 < v) :
    ∃ (s k : Nat), 2 ^ 55 ≤ s ∧
      (s : ℚ) ^ 2 ≤ v * 4 ^ k ∧ v * 4 ^ k < ((s : ℚ) + 1) ^ 2 ∧
      flSqrt v = fl (((s : ℚ) + (if (s : ℚ) ^ 2 = v * 4 ^ k then 0 else 1 / 2))
        / ((2 ^ k : Nat) : ℚ)) := by
  have hnum : 0 < v.num := Rat.num_pos.2 hv
  have hp : 0 < v.num.natAbs := Int.natAbs_pos.2 (ne_of_gt hnum)
  have hq : 0 < v.den := v.den_pos
  have hvpq : v = (v.num.natAbs : ℚ) / (v.den : ℚ) := by
    rw [← abs_eq_natAbs_div, abs_of_pos hv]
  generalize hpp : v.num.natAbs = p at *
  generalize hqq : v.den = q at *
  have hq' : (0 : ℚ) < (q : ℚ) := by exact_mod_cast hq
  -- the quotient and its root
  have hdm : q * (p * 4 ^ (56 + q.log2) / q) + p * 4 ^ (56 + q.log2) % q
      = p * 4 ^ (56 + q.log2) := Nat.div_add_mod _ _
  have hmod : p * 4 ^ (56 + q.log2) % q < q := Nat.mod_lt _ hq
  obtain ⟨hs1, hs2⟩ := isqrt_spec (p * 4 ^ (56 + q.log2) / q)
  have hsize : 2 ^ 55 ≤ isqrt (p * 4 ^ (56 + q.log2) / q) :=
    isqrt_ge _ (sqrt_quotient_ge p q hp hq)
  have hflS : flSqrt v = fl (((isqrt (p * 4 ^ (56 + q.log2) / q) : ℚ)
      + (if decide (p * 4 ^ (56 + q.log2) % q = 0 ∧
            isqrt (p * 4 ^ (56 + q.log2) / q) * isqrt (p * 4 ^ (56 + q.log2) / q)
              = p * 4 ^ (56 + q.log2) / q) = true then 0 else 1 / 2))
      / ((2 ^ (56 + q.log2) : Nat) : ℚ)) := by
    unfold flSqrt
    rw [if_neg (not_le.2 hv)]
    simp only [hpp, hqq, ilog2_eq]
  rw [hflS]
  generalize hn : p * 4 ^ (56 + q.log2) / q = n at *
  generalize hr : p * 4 ^ (56 + q.log2) % q = r at *
  generalize hs : isqrt n = s at *
  generalize hk : 56 + q.log2 = k at *
  -- v * 4^k in terms of n and r
  have hv4 : v * 4 ^ k = (n : ℚ) + (r : ℚ) / (q : ℚ) := by
    rw [hvpq]
    have : ((p * 4 ^ k : Nat) : ℚ) = (q : ℚ) * n + r := by exact_mod_cast hdm.symm
    push_cast at this
    field_simp
    linarith
  have hr0 : (0 : ℚ) ≤ (r : ℚ) / (q : ℚ) := by positivity
  have hr1 : (r : ℚ) / (q : ℚ) < 1 := by
    rw [div_lt_one hq']; exact_mod_cast hmod
  have hs1' : ((s : ℚ)) ^ 2 ≤ (n : ℚ) := by
    have : ((s * s : Nat) : ℚ) ≤ (n : ℚ) := by exact_mod_cast hs1
    push_cast at this; rw [pow_two]; exact this
  have hs2' : (n : ℚ) + 1 ≤ ((s : ℚ) + 1) ^ 2 := by
    have : ((n + 1 : Nat) : ℚ) ≤ (((s + 1) * (s + 1) : Nat) : ℚ) := by exact_mod_cast hs2
    push_cast at this; rw [pow_two]; exact this
  refine ⟨s, k, hsize, ?_, ?_, ?_⟩
  · rw [hv4]; linarith
  · rw [hv4]; linarith
  · have hiff : (decide (r = 0 ∧ s * s = n) = true) ↔ ((s : ℚ) ^ 2 = v * 4 ^ k) := by
      rw [decide_eq_true_eq, hv4]
      constructor
      · rintro ⟨h0, hss⟩
        subst h0
        have : ((s * s : Nat) : ℚ) = (n : ℚ) := by exact_mod_cast hss
        push_cast at this
        simp only [Nat.cast_zero, zero_div, add_zero]
        rw [← this]; ring
      · intro heq
        have hle : (n : ℚ) ≤ (s : ℚ) ^ 2 := by rw [heq]; linarith
        have hsn : (s : ℚ) ^ 2 = (n : ℚ) := le_antisymm hs1' hle
        have hrz : (r : ℚ) / (q : ℚ) = 0 := by linarith
        have hr' : (r : ℚ) = 0 := by
          rcases div_eq_zero_iff.1 hrz with h | h
          · exact h
          · exact absurd h (ne_of_gt hq')
        refine ⟨by exact_mod_cast hr', ?_⟩
        have : ((s * s : Nat) : ℚ) = (n : ℚ) := by push_cast; rw [← hsn]; ring
        exact_mod_cast this
    by_cases hex : (s : ℚ) ^ 2 = v * 4 ^ k
    · rw [if_pos hex, if_pos (hiff.2 hex)]
    · rw [if_neg hex, if_neg (fun h => hex (hiff.1 h))]

/-! ## C1: points awarded for a pop -/

/-- C1: in a running, unpaused state with level `L ≥ 1` and combo streak `c`, a tap whose
front-most hit balloon is `b` awards `specPoints L b.golden c`
`= round(10*(1+(L-1)*0.2)) * (5 if golden else 1) * min(c+1, 5)` points, where the
rounded base equals `8 + 2*L`; the awarded amount is what the floating label shows, from
streak 4 on the combo factor is the cap 5, and when the pop does not complete the level
the score grows by exactly that amount. -/
theorem handlePop_points (env : Env) (rect : Rect) (e : InputEvent) (s : State) (i : Nat)
    (b : Balloon) (hrun : s.running = true) (hp : s.paused = false) (hL : 1 ≤ s.level)
    (hit : IsFrontHit (getInputPos rect e) s.balloons i b) :
    specPoints s.level b.golden s.currentCombo
        = (8 + 2 * s.level) * (if b.golden then 5 else 1) * min (s.currentCombo + 1) 5 ∧
    (4 ≤ s.currentCombo → specPoints s.level b.golden s.currentCombo
        = (8 + 2 * s.level) * (if b.golden then 5 else 1) * 5) ∧
    (s.log ++ [Effect.preventDefault,
        Effect.popEffect (getInputPos rect e).x (getInputPos rect e).y
          (specPoints s.level b.golden s.currentCombo)]) <+: (handlePop env rect e s).log ∧
    (s.levelPopped + 1 < (getLevelConfig s).target →
      (handlePop env rect e s).score
        = s.score + specPoints s.level b.golden s.currentCombo) := by
  have _ := hL
  rw [handlePop_hit env rect e s i b hrun hp hit]
  refine ⟨?_, ?_, ?_, ?_⟩
  · unfold specPoints; rw [basePoints_eq]
  · intro h4
    unfold specPoints; rw [basePoints_eq, min_eq_right (by omega)]
  · have := popBalloon_log env (getInputPos rect e) i b (afterClick s)
    simpa [afterClick, emit] using this
  · intro hc
    have := popBalloon_score env (getInputPos rect e) i b (afterClick s)
      (by simpa [afterClick, emit, getLevelConfig] using hc)
    simpa [afterClick, emit] using this

/-- Witness for `handlePop_points` (C1): a first tap on a plain balloon at level 1. -/
theorem handlePop_points_witness :
    (sampleState.running = true ∧ sampleState.paused = false ∧ 1 ≤ sampleState.level ∧
      IsFrontHit (getInputPos sampleRect sampleTap) sampleState.balloons 0 sampleBalloon) ∧
    specPoints 1 false 0 = 10 ∧
    (handlePop sampleEnv sampleRect sampleTap sampleState).score = 10 := by
  have h := handlePop_points sampleEnv sampleRect sampleTap sampleState 0 sampleBalloon
    rfl rfl (by decide) sample_frontHit
  refine ⟨⟨rfl, rfl, by decide, sample_frontHit⟩, ?_, ?_⟩
  · simpa [sampleState, sampleBalloon, btnStartClick, startLevel, resetGame, updateHUD, emit, hideAllModals, initState] using h.1
  · have h4 := h.2.2.2 (by decide!)
    rw [h4, h.1]
    decide

/-! ## C2: which balloon a tap pops -/

/-- C2 as stated fails: in `edgeState` the only balloon is farther than `radius + 8` from
the tap `edgeTap` (exact distance `sqrt(900 + 2^-60) > 30`), so no balloon satisfies the
condition of the claim, yet `handlePop` pops it: in double arithmetic `900 + 2^-60` is
900 and the computed distance 30 passes `dist <= b.radius + 8`. -/
theorem handlePop_pops_front_counterexample :
    (edgeState.running = true ∧ edgeState.paused = false) ∧
    (∀ b ∈ edgeState.balloons, ¬ WithinReach (getInputPos sampleRect edgeTap) b) ∧
    (handlePop sampleEnv sampleRect edgeTap edgeState).balloons
      = [{ edgeBalloon with popped := true }] ∧
    (handlePop sampleEnv sampleRect edgeTap edgeState).balloons ≠ edgeState.balloons := by
  decide!

/-- C2 (amended): in a running, unpaused state a tap changes the balloon list in exactly
one of two ways.  Either some balloon is hit, and then the balloon `b` at the greatest
index `i` among the hit ones gets `popped = true` while every other balloon and every
other field of `b` stays as it was; or no balloon is hit and the balloon list is
unchanged.  A balloon is hit when it is not popped, not escaped and passes the distance
test as the code computes it, `Math.sqrt(dx*dx + dy*dy) <= radius + 8` in double
arithmetic.  So at most one balloon is popped per input event. -/
theorem handlePop_pops_front (env : Env) (rect : Rect) (e : InputEvent) (s : State)
    (hrun : s.running = true) (hp : s.paused = false) :
    (∃ i b, IsFrontHit (getInputPos rect e) s.balloons i b ∧
      (handlePop env rect e s).balloons = s.balloons.set i { b with popped := true } ∧
      (∀ j, j ≠ i → (handlePop env rect e s).balloons[j]? = s.balloons[j]?) ∧
      (handlePop env rect e s).balloons.length = s.balloons.length) ∨
    ((∀ b ∈ s.balloons, ¬ Hits (getInputPos rect e) b) ∧
      (handlePop env rect e s).balloons = s.balloons) := by
  rcases frontHit_or_none (getInputPos rect e) s.balloons with hn | ⟨i, b, hf⟩
  · right
    refine ⟨hn, ?_⟩
    rw [handlePop_miss env rect e s hrun hp hn]
    rfl
  · left
    have hb : (handlePop env rect e s).balloons = s.balloons.set i { b with popped := true } := by
      rw [handlePop_hit env rect e s i b hrun hp hf]
      exact (popBalloon_fields env _ i b (afterClick s)).1
    refine ⟨i, b, hf, hb, ?_, ?_⟩
    · intro j hj
      rw [hb, List.getElem?_set_ne (Ne.symm hj)]
    · rw [hb, List.length_set]

/-- Witness for `handlePop_pops_front` (C2): the sample tap pops the sample balloon. -/
theorem handlePop_pops_front_witness :
    (sampleState.running = true ∧ sampleState.paused = false) ∧
    (handlePop sampleEnv sampleRect sampleTap sampleState).balloons
      = [{ sampleBalloon with popped := true }] := by
  refine ⟨⟨rfl, rfl⟩, ?_⟩
  rcases handlePop_pops_front sampleEnv sampleRect sampleTap sampleState rfl rfl with
    ⟨i, b, hf, hb, _, _⟩ | ⟨hn, _⟩
  · have hbs : sampleState.balloons = [sampleBalloon] := rfl
    have h1 := hf.1
    rw [hbs] at h1 hb
    cases i with
    | zero =>
      simp at h1
      subst h1
      simpa using hb
    | succ n => simp at h1
  · exact absurd sample_frontHit.2.1 (hn sampleBalloon (by simp [sampleState]))

/-! ## C3: combo streak after a tap -/

/-- C3 as stated fails: in `edgeState` (streak 3) no active balloon lies within
`radius + 8` of the tap `edgeTap`, yet the streak after `handlePop` is 4, not 0, because
the distance test of the code, rounded to doubles, passes. -/
theorem handlePop_streak_counterexample :
    (edgeState.running = true ∧ edgeState.paused = false ∧ edgeState.currentCombo = 3) ∧
    (∀ b ∈ edgeState.balloons, ¬ WithinReach (getInputPos sampleRect edgeTap) b) ∧
    (handlePop sampleEnv sampleRect edgeTap edgeState).currentCombo = 4 ∧
    (handlePop sampleEnv sampleRect edgeTap edgeState).currentCombo ≠ 0 := by
  decide!

/-- C3 (amended): in a running, unpaused state with combo streak `c`, a tap that hits no
active balloon leaves the streak at 0, and a tap that hits some active balloon leaves it
at `c + 1`, where a balloon is hit when it passes the distance test as the code computes
it, `Math.sqrt(dx*dx + dy*dy) <= radius + 8` in double arithmetic. -/
theorem handlePop_streak (env : Env) (rect : Rect) (e : InputEvent) (s : State)
    (hrun : s.running = true) (hp : s.paused = false) :
    ((∀ b ∈ s.balloons, ¬ Hits (getInputPos rect e) b) →
      (handlePop env rect e s).currentCombo = 0) ∧
    ((∃ b ∈ s.balloons, Hits (getInputPos rect e) b) →
      (handlePop env rect e s).currentCombo = s.currentCombo + 1) := by
  constructor
  · intro hn
    rw [handlePop_miss env rect e s hrun hp hn]
  · intro hh
    obtain ⟨i, b, hf⟩ := frontHit_of_hit _ _ hh
    rw [handlePop_hit env rect e s i b hrun hp hf]
    exact (popBalloon_fields env _ i b (afterClick s)).2.1

/-- Witness for `handlePop_streak` (C3): from streak 3 a hit on the sample balloon gives
streak 4 and a miss resets the streak to 0. -/
theorem handlePop_streak_witness :
    (comboState.running = true ∧ comboState.paused = false ∧ comboState.currentCombo = 3) ∧
    (∃ b ∈ comboState.balloons, Hits (getInputPos sampleRect sampleTap) b) ∧
    (handlePop sampleEnv sampleRect sampleTap comboState).currentCombo = 4 ∧
    (∀ b ∈ comboState.balloons, ¬ Hits (getInputPos sampleRect sampleMiss) b) ∧
    (handlePop sampleEnv sampleRect sampleMiss comboState).currentCombo = 0 := by
  have h := handlePop_streak sampleEnv sampleRect sampleTap comboState rfl rfl
  have h' := handlePop_streak sampleEnv sampleRect sampleMiss comboState rfl rfl
  have hhit : ∃ b ∈ comboState.balloons, Hits (getInputPos sampleRect sampleTap) b :=
    ⟨sampleBalloon, by simp [comboState, sampleState], sample_frontHit.2.1⟩
  have hmiss : ∀ b ∈ comboState.balloons, ¬ Hits (getInputPos sampleRect sampleMiss) b := by
    intro b hb
    have : b = sampleBalloon := by simpa [comboState, sampleState] using hb
    subst this
    decide!
  exact ⟨⟨rfl, rfl, rfl⟩, hhit, h.2 hhit, hmiss, h'.1 hmiss⟩

/-! ## C4: levelPopped and the level target -/

/-- C4: in every state reachable from the initial state by start, pause, resume, restart,
next-level, play-again, main-menu, key, tap and tick operations, `levelPopped` never
exceeds the target of the current level and is strictly below it while `running` is
true; a tap after which `levelPopped` equals the target leaves `running = false`; and
while `running` is false a tick changes nothing but `lastTime` and only an operation that
starts a level makes `running` true again. -/
theorem reachable_levelPopped (env : Env) (hs : Int) (s : State)
    (h : Reachable env hs s) :
    s.levelPopped ≤ (getLevelConfig s).target ∧
    (s.running = true → s.levelPopped < (getLevelConfig s).target) ∧
    (∀ rect e, (handlePop env rect e s).levelPopped
        = (getLevelConfig (handlePop env rect e s)).target →
      (handlePop env rect e s).running = false) ∧
    (s.running = false → ∀ rect t, gameLoop env rect t s = { s with lastTime := t }) ∧
    (s.running = false → ∀ op, op.startsLevel = false → (step env op s).running = false) := by
  obtain ⟨_, h2, h3⟩ := levelInv_of_reachable h
  refine ⟨h2, h3, ?_, ?_, ?_⟩
  · intro rect e heq
    have hinv : LevelInv (handlePop env rect e s) :=
      levelInv_of_reachable (Reachable.step (Op.tap rect e) h)
    have h3' := hinv.2.2
    cases hr : (handlePop env rect e s).running with
    | false => rfl
    | true =>
      have := h3' hr
      rw [heq] at this
      exact absurd this (lt_irrefl _)
  · intro hr rect t
    exact gameLoop_idle env rect t s hr
  · intro hr op hop
    exact step_stays_stopped env op s hr hop

/-- Witness for `reachable_levelPopped` (C4): the state right after the start button. -/
theorem reachable_levelPopped_witness :
    Reachable sampleEnv 0 (step sampleEnv Op.start (initState 0)) ∧
    (step sampleEnv Op.start (initState 0)).running = true ∧
    (step sampleEnv Op.start (initState 0)).levelPopped < 8 := by
  have hr : Reachable sampleEnv 0 (step sampleEnv Op.start (initState 0)) :=
    Reachable.step Op.start Reachable.init
  have h := reachable_levelPopped sampleEnv 0 _ hr
  exact ⟨hr, rfl, h.2.1 rfl⟩

/-! ## C5: end-of-level bonus -/

/-- C5: `showLevelComplete` adds to the score exactly `stars*50 + lives*25`, with the
accuracy `round(100 * levelPopped / levelClicks)` (0 without clicks) and the stars 3 from
85, 2 from 60 to below 85, 1 otherwise; the modal shows that accuracy, star count and
bonus; with `levelPopped = levelClicks = 8` the accuracy is 100, the stars are 3 and the
bonus is `150 + 25*lives`. -/
theorem showLevelComplete_bonus (s : State) :
    (showLevelComplete s).score = s.score +
      (specStars (specAccuracy s.levelPopped s.levelClicks) * 50 + s.lives * 25) ∧
    Effect.levelCompleteText s.levelPopped (specAccuracy s.levelPopped s.levelClicks)
      (s.score + (specStars (specAccuracy s.levelPopped s.levelClicks) * 50 + s.lives * 25))
      (specStars (specAccuracy s.levelPopped s.levelClicks) * 50 + s.lives * 25)
      (levelAt (min s.level 9)).name
      (specStars (specAccuracy s.levelPopped s.levelClicks)) ∈ (showLevelComplete s).log ∧
    specAccuracy 8 8 = 100 ∧ specStars 100 = 3 ∧
    (showLevelComplete { s with levelPopped := 8, levelClicks := 8 }).score
      = s.score + (150 + 25 * s.lives) := by
  have hacc : specAccuracy 8 8 = 100 := by
    unfold specAccuracy
    have : (100 * ((8 : Int) : ℚ) / ((8 : Int) : ℚ)) = ((100 : Int) : ℚ) := by norm_num
    rw [this, mathRound_intCast]
    simp
  have hst : specStars 100 = 3 := by decide
  refine ⟨?_, ?_, hacc, hst, ?_⟩
  · rw [showLevelComplete_eq]
  · rw [showLevelComplete_eq]
    simp
  · rw [showLevelComplete_eq]
    simp only [hacc, hst]
    ring

/-! ## C6: range of lives -/

set_option maxHeartbeats 4000000 in
/-- C6 fails on the code: in the session `raceOps 238` (start, then 238 frames 50 ms
apart on a 400 x 600 canvas, all random draws in `[0,1)`) the first four balloons cross
the escape line in the same frame; `update` takes a life for each of them, so the
reachable state after that frame has `lives = -1`. -/
theorem lives_negative_reachable :
    (∀ k, 0 ≤ raceEnv.random k ∧ raceEnv.random k < 1) ∧
    Reachable raceEnv 0 (run raceEnv (raceOps 238) (initState 0)) ∧
    (run raceEnv (raceOps 237) (initState 0)).lives = 3 ∧
    (run raceEnv (raceOps 238) (initState 0)).lives = -1 :=
  ⟨raceEnv_random, reachable_run raceEnv 0 _ _ Reachable.init, by decide!⟩

/-! ## C7: escapes and lives -/

/-- C7 as stated fails: after a step of 1/20 s the balloon `topBalloon` has its top edge
`y - radius` more than 20 units above the visible top, yet it is not marked escaped, it
stays in the balloon list and no life is lost. -/
theorem update_escape_counterexample :
    (updateBalloon sampleEnv 400 (1 / 20) topBalloon sampleState).1.y
      - (updateBalloon sampleEnv 400 (1 / 20) topBalloon sampleState).1.radius < -20 ∧
    (updateBalloon sampleEnv 400 (1 / 20) topBalloon sampleState).1.escaped = false ∧
    (update sampleEnv sampleRect (1 / 20) { sampleState with balloons := [topBalloon] }).lives
      = 3 ∧
    (updateBalloon sampleEnv 400 (1 / 20) topBalloon sampleState).1
      ∈ (update sampleEnv sampleRect (1 / 20)
          { sampleState with balloons := [topBalloon] }).balloons := by
  refine ⟨by decide!, by decide!, by decide!, by decide!⟩

/-- C7 (amended): in every simulation step an active balloon is marked escaped exactly
when, after its move, its bottom edge `y + radius` is more than 20 units above the
visible top (`y + radius < -20`); the step lowers `lives` by exactly the number of
balloons so marked; and every balloon marked escaped is removed from the balloon list at
the end of the same step, so no balloon lowers `lives` more than once. -/
theorem update_escape (env : Env) (rect : Rect) (dt : ℚ) (s : State) :
    (∀ (b : Balloon) (st : State), b.popped = false → b.escaped = false →
      ((updateBalloon env rect.width dt b st).1.escaped = true ↔
        (updateBalloon env rect.width dt b st).1.y
          + (updateBalloon env rect.width dt b st).1.radius < -20) ∧
      (updateBalloon env rect.width dt b st).1.y = b.y - b.speed * dt ∧
      (updateBalloon env rect.width dt b st).2.lives
        = st.lives - (if (updateBalloon env rect.width dt b st).1.escaped then 1 else 0)) ∧
    (update env rect dt s).lives = s.lives -
      ((updateSpawn env rect dt (updateCombo dt s)).balloons.countP
        (fun b => decide (Escapes dt b)) : Nat) ∧
    (∀ b ∈ (update env rect dt s).balloons, b.escaped = false ∧ b.popped = false) := by
  refine ⟨?_, (update_fields env rect dt s).1, ?_⟩
  · intro b st hp he
    obtain ⟨_, hr, hesc, hy⟩ := updateBalloon_balloon env rect.width dt b st
    have hy' := hy hp he
    have hiff : (updateBalloon env rect.width dt b st).1.escaped = true ↔ Escapes dt b := by
      rw [hesc]; simp [he]
    refine ⟨?_, hy', ?_⟩
    · rw [hiff, hy', hr]
      unfold Escapes
      simp [hp, he]
    · rw [updateBalloon_state]
      by_cases h : Escapes dt b
      · have := hiff.2 h
        simp [h, this, (loseLife_fields st).1]
      · have : (updateBalloon env rect.width dt b st).1.escaped = false := by
          simpa using fun hc => h (hiff.1 hc)
        simp [h, this]
  · intro b hb
    unfold update at hb
    simp only [List.mem_filter] at hb
    have h2 := hb.2
    simp only [Bool.and_eq_true, Bool.not_eq_true'] at h2
    exact ⟨h2.2, h2.1⟩

/-- Witness for `update_escape` (C7): a balloon whose bottom edge passes 20 units above
the top is marked escaped and costs one of the three lives. -/
theorem update_escape_witness :
    (goneBalloon.popped = false ∧ goneBalloon.escaped = false) ∧
    (updateBalloon sampleEnv sampleRect.width (1 / 20) goneBalloon sampleState).1.escaped
      = true ∧
    (update sampleEnv sampleRect (1 / 20) { sampleState with balloons := [goneBalloon] }).lives
      = 2 := by
  have h := update_escape sampleEnv sampleRect (1 / 20)
    { sampleState with balloons := [goneBalloon] }
  refine ⟨⟨rfl, rfl⟩, ?_, ?_⟩
  · rw [(h.1 goneBalloon sampleState rfl rfl).1, (h.1 goneBalloon sampleState rfl rfl).2.1]
    decide!
  · rw [h.2.1]
    decide!

/-! ## C8: game over -/

set_option maxHeartbeats 4000000 in
/-- C8 fails on the code: the frame that ends the session `raceOps 238` starts in a
running, unpaused state with 3 lives and no game-over shown so far; in that one call of
`update` four balloons escape, `lives` passes 0 and ends at -1, and `triggerGameOver`
runs twice (the game-over modal is shown twice). -/
theorem gameOver_twice_in_one_update :
    (run raceEnv (raceOps 237) (initState 0)).running = true ∧
    (run raceEnv (raceOps 237) (initState 0)).paused = false ∧
    (run raceEnv (raceOps 237) (initState 0)).lives = 3 ∧
    gameOverCount (run raceEnv (raceOps 237) (initState 0)).log = 0 ∧
    gameOverCount (update raceEnv sampleRect (1 / 20)
      (run raceEnv (raceOps 237) (initState 0))).log = 2 ∧
    (update raceEnv sampleRect (1 / 20) (run raceEnv (raceOps 237) (initState 0))).lives
      = -1 ∧
    (update raceEnv sampleRect (1 / 20) (run raceEnv (raceOps 237) (initState 0))).gameOver
      = true := by
  decide!

/-! ## C9: click counter -/

/-- C9 as stated fails: a tap delivered while the game is not running (here: before the
first start) leaves `levelClicks` as it was. -/
theorem handlePop_levelClicks_counterexample :
    (handlePop sampleEnv sampleRect sampleTap (initState 0)).levelClicks
      ≠ (initState 0).levelClicks + 1 := by
  decide

/-- C9 (amended): in a running, unpaused state every input event delivered to `handlePop`
raises `levelClicks` by exactly 1, whether or not it hits a balloon; in a state that is
not running or is paused `handlePop` returns at its guard and changes nothing. -/
theorem handlePop_levelClicks (env : Env) (rect : Rect) (e : InputEvent) (s : State) :
    (s.running = true ∧ s.paused = false →
      (handlePop env rect e s).levelClicks = s.levelClicks + 1) ∧
    (s.running = false ∨ s.paused = true → handlePop env rect e s = s) := by
  constructor
  · rintro ⟨hrun, hp⟩
    rcases frontHit_or_none (getInputPos rect e) s.balloons with hn | ⟨i, b, hf⟩
    · rw [handlePop_miss env rect e s hrun hp hn]
      rfl
    · rw [handlePop_hit env rect e s i b hrun hp hf]
      exact (popBalloon_fields env _ i b (afterClick s)).2.2.1
  · intro h
    unfold handlePop
    rcases h with h | h <;> simp [h]

/-- Witness for `handlePop_levelClicks` (C9): a hit in the sample state counts one click,
and a tap before the game starts changes nothing. -/
theorem handlePop_levelClicks_witness :
    (sampleState.running = true ∧ sampleState.paused = false) ∧
    (handlePop sampleEnv sampleRect sampleTap sampleState).levelClicks = 1 ∧
    ((initState 0).running = false ∨ (initState 0).paused = true) ∧
    handlePop sampleEnv sampleRect sampleTap (initState 0) = initState 0 :=
  ⟨⟨rfl, rfl⟩,
    (handlePop_levelClicks sampleEnv sampleRect sampleTap sampleState).1 ⟨rfl, rfl⟩,
    Or.inl rfl,
    (handlePop_levelClicks sampleEnv sampleRect sampleTap (initState 0)).2 (Or.inl rfl)⟩

/-! ## C10: bounds of a spawned balloon -/

/-- C10 as stated fails: on a canvas 40 units wide, with every random draw equal to
`1/2`, the spawned balloon has radius 31 and x = 20, left of `radius`. -/
theorem createBalloon_bounds_counterexample :
    (1 ≤ sampleState.level ∧ ∀ k, 0 ≤ sampleEnv.random k ∧ sampleEnv.random k < 1) ∧
    (createBalloon sampleEnv narrowRect sampleState).1.radius = 31 ∧
    (createBalloon sampleEnv narrowRect sampleState).1.x = 20 ∧
    ¬ ((createBalloon sampleEnv narrowRect sampleState).1.radius
        ≤ (createBalloon sampleEnv narrowRect sampleState).1.x) := by
  refine ⟨⟨by decide, sampleEnv_random⟩, by decide!, by decide!, by decide!⟩

/-- C10 (amended): for every level `L ≥ 1`, every canvas width `w` and every outcome of
the random draws (each in `[0,1)`), the balloon returned by `createBalloon` has
`22 ≤ radius ≤ 40`, and `radius ≤ x ≤ w - radius` whenever `w ≥ 2*radius + 10`, which
holds for every `w ≥ 90`. -/
theorem createBalloon_bounds (env : Env) (rect : Rect) (s : State) (hL : 1 ≤ s.level)
    (hr : ∀ k, 0 ≤ env.random k ∧ env.random k < 1) :
    22 ≤ (createBalloon env rect s).1.radius ∧ (createBalloon env rect s).1.radius ≤ 40 ∧
    (2 * (createBalloon env rect s).1.radius + 10 ≤ rect.width →
      (createBalloon env rect s).1.radius ≤ (createBalloon env rect s).1.x ∧
      (createBalloon env rect s).1.x ≤ rect.width - (createBalloon env rect s).1.radius) ∧
    (90 ≤ rect.width →
      (createBalloon env rect s).1.radius ≤ (createBalloon env rect s).1.x ∧
      (createBalloon env rect s).1.x ≤ rect.width - (createBalloon env rect s).1.radius) := by
  have _ := hL
  obtain ⟨h0, h1⟩ := hr s.randomCalls
  obtain ⟨g0, g1⟩ := hr (s.randomCalls + 2)
  have hrad : (createBalloon env rect s).1.radius = rand (env.random s.randomCalls) 22 40 := rfl
  have hx : (createBalloon env rect s).1.x = rand (env.random (s.randomCalls + 2))
      (rand (env.random s.randomCalls) 22 40 + 10)
      (rect.width - rand (env.random s.randomCalls) 22 40 - 10) := rfl
  rw [hrad, hx]
  have hb := rand_bounds (env.random s.randomCalls) 22 40 h0 h1 (by norm_num)
  have key : 2 * rand (env.random s.randomCalls) 22 40 + 10 ≤ rect.width →
      rand (env.random s.randomCalls) 22 40 ≤ rand (env.random (s.randomCalls + 2))
        (rand (env.random s.randomCalls) 22 40 + 10)
        (rect.width - rand (env.random s.randomCalls) 22 40 - 10) ∧
      rand (env.random (s.randomCalls + 2))
        (rand (env.random s.randomCalls) 22 40 + 10)
        (rect.width - rand (env.random s.randomCalls) 22 40 - 10)
        ≤ rect.width - rand (env.random s.randomCalls) 22 40 := by
    intro hw
    generalize rand (env.random s.randomCalls) 22 40 = r at hw hb ⊢
    generalize env.random (s.randomCalls + 2) = u at g0 g1 ⊢
    unfold rand
    constructor <;> nlinarith
  refine ⟨hb.1, hb.2, key, ?_⟩
  intro hw
  apply key
  unfold rand at hb ⊢
  nlinarith

/-- Witness for `createBalloon_bounds` (C10): the sample draws on the sample canvas. -/
theorem createBalloon_bounds_witness :
    (1 ≤ sampleState.level ∧ ∀ k, 0 ≤ sampleEnv.random k ∧ sampleEnv.random k < 1) ∧
    22 ≤ (createBalloon sampleEnv sampleRect sampleState).1.radius ∧
    (createBalloon sampleEnv sampleRect sampleState).1.radius
      ≤ (createBalloon sampleEnv sampleRect sampleState).1.x :=
  have h := createBalloon_bounds sampleEnv sampleRect sampleState (by decide) sampleEnv_random
  ⟨⟨by decide, sampleEnv_random⟩, h.1, (h.2.2.2 (by decide!)).1⟩

/-! ## C11: clicks bound pops, accuracy stays in range -/

/-- C11: in every state reachable from the initial state by start, pause, resume,
restart, next-level, play-again, main-menu, key, tap and tick operations,
`0 ≤ levelPopped ≤ levelClicks`; so the accuracy `showLevelComplete` would compute and
log there is between 0 and 100.  A tap that pops a balloon reaches `checkLevelComplete`
on the state `popBody`, where `levelClicks > 0` and `levelPopped ≤ levelClicks`; when the
target is reached there, `showLevelComplete` runs on that state, the accuracy it logs is
the value of the branch with clicks, `round((levelPopped / levelClicks) * 100)`, never
the zero-click branch, and it lies between 0 and 100. -/
theorem reachable_clicks_accuracy (env : Env) (hs : Int) (s : State)
    (h : Reachable env hs s) :
    (0 ≤ s.levelPopped ∧ s.levelPopped ≤ s.levelClicks) ∧
    ((s.log ++ [levelCompleteEntry s]) <+: (showLevelComplete s).log ∧
      0 ≤ specAccuracy s.levelPopped s.levelClicks ∧
      specAccuracy s.levelPopped s.levelClicks ≤ 100) ∧
    (∀ rect e i b, s.running = true → s.paused = false →
      IsFrontHit (getInputPos rect e) s.balloons i b →
      handlePop env rect e s
        = checkLevelComplete (popBody env (getInputPos rect e) i b (afterClick s)) ∧
      0 < (popBody env (getInputPos rect e) i b (afterClick s)).levelClicks ∧
      (popBody env (getInputPos rect e) i b (afterClick s)).levelPopped
        ≤ (popBody env (getInputPos rect e) i b (afterClick s)).levelClicks ∧
      ((getLevelConfig (popBody env (getInputPos rect e) i b (afterClick s))).target
          ≤ (popBody env (getInputPos rect e) i b (afterClick s)).levelPopped →
        handlePop env rect e s = showLevelComplete
          { popBody env (getInputPos rect e) i b (afterClick s) with running := false } ∧
        ((popBody env (getInputPos rect e) i b (afterClick s)).log
            ++ [levelCompleteEntry (popBody env (getInputPos rect e) i b (afterClick s))])
          <+: (handlePop env rect e s).log ∧
        specAccuracy (popBody env (getInputPos rect e) i b (afterClick s)).levelPopped
            (popBody env (getInputPos rect e) i b (afterClick s)).levelClicks
          = mathRound ((((popBody env (getInputPos rect e) i b (afterClick s)).levelPopped : ℚ)
              / ((popBody env (getInputPos rect e) i b (afterClick s)).levelClicks : ℚ))
              * 100) ∧
        0 ≤ specAccuracy (popBody env (getInputPos rect e) i b (afterClick s)).levelPopped
            (popBody env (getInputPos rect e) i b (afterClick s)).levelClicks ∧
        specAccuracy (popBody env (getInputPos rect e) i b (afterClick s)).levelPopped
            (popBody env (getInputPos rect e) i b (afterClick s)).levelClicks ≤ 100)) := by
  obtain ⟨h0, h1⟩ := clickInv_of_reachable h
  refine ⟨⟨h0, h1⟩, ⟨showLevelComplete_entry s, specAccuracy_bounds _ _ h0 h1⟩, ?_⟩
  intro rect e i b hrun hp hf
  obtain ⟨f1, f2, _⟩ := popBody_fields env (getInputPos rect e) i b (afterClick s)
  have f1' : (popBody env (getInputPos rect e) i b (afterClick s)).levelClicks
      = s.levelClicks + 1 := f1
  have f2' : (popBody env (getInputPos rect e) i b (afterClick s)).levelPopped
      = s.levelPopped + 1 := f2
  have hpop : handlePop env rect e s
      = checkLevelComplete (popBody env (getInputPos rect e) i b (afterClick s)) := by
    rw [handlePop_hit env rect e s i b hrun hp hf, popBalloon_eq_check]
  have hc : 0 < (popBody env (getInputPos rect e) i b (afterClick s)).levelClicks := by
    rw [f1']; omega
  have hle : (popBody env (getInputPos rect e) i b (afterClick s)).levelPopped
      ≤ (popBody env (getInputPos rect e) i b (afterClick s)).levelClicks := by
    rw [f1', f2']; omega
  have hge0 : 0 ≤ (popBody env (getInputPos rect e) i b (afterClick s)).levelPopped := by
    rw [f2']; omega
  refine ⟨hpop, hc, hle, ?_⟩
  intro ht
  have hshow : handlePop env rect e s = showLevelComplete
      { popBody env (getInputPos rect e) i b (afterClick s) with running := false } := by
    rw [hpop, checkLevelComplete_of_ge _ ht]
  refine ⟨hshow, ?_, specAccuracy_of_pos _ _ hc, specAccuracy_bounds _ _ hge0 hle⟩
  rw [hshow]
  exact showLevelComplete_entry
    { popBody env (getInputPos rect e) i b (afterClick s) with running := false }

/-- Witness for `reachable_clicks_accuracy` (C11): in the state at the end of the short
session a tap on the balloon reaches `checkLevelComplete` with one click and one pop. -/
theorem reachable_clicks_accuracy_witness :
    Reachable sampleEnv 0 (run sampleEnv shortOps (initState 0)) ∧
    ((run sampleEnv shortOps (initState 0)).running = true ∧
      (run sampleEnv shortOps (initState 0)).paused = false ∧
      IsFrontHit (getInputPos sampleRect bottomTap)
        (run sampleEnv shortOps (initState 0)).balloons 0 shortBalloon) ∧
    (run sampleEnv shortOps (initState 0)).levelPopped
      ≤ (run sampleEnv shortOps (initState 0)).levelClicks ∧
    0 < (popBody sampleEnv (getInputPos sampleRect bottomTap) 0 shortBalloon
      (afterClick (run sampleEnv shortOps (initState 0)))).levelClicks ∧
    (handlePop sampleEnv sampleRect bottomTap (run sampleEnv shortOps (initState 0))).levelPopped
      = 1 := by
  have hr : Reachable sampleEnv 0 (run sampleEnv shortOps (initState 0)) :=
    reachable_run sampleEnv 0 _ _ Reachable.init
  have hrun : (run sampleEnv shortOps (initState 0)).running = true := by decide!
  have hp : (run sampleEnv shortOps (initState 0)).paused = false := by decide!
  have h := reachable_clicks_accuracy sampleEnv 0 _ hr
  have ht := h.2.2 sampleRect bottomTap 0 shortBalloon hrun hp short_frontHit
  refine ⟨hr, ⟨hrun, hp, short_frontHit⟩, h.1.2, ht.2.1, ?_⟩
  decide!

end BalloonPop
